import Mathlib

/-!
Shallow embedding of the CHIP-8 emulator core from `src/chip8.rs` of the
repository `alvin677/chip8`, together with proofs settling the frozen claims
about its specification.

Modelling conventions:
* `u8` / `u16` machine integers become `Nat` with explicit `% 256` / `% 65536`
  wherever the Rust code can wrap (`wrapping_add`, `wrapping_sub`,
  `wrapping_mul`, `overflowing_add`, and unsigned `+=` in release mode).
* Fixed-size Rust arrays (`[u8; 4096]`, `[u8; 16]`, `[u16; 16]`,
  `[u8; 64*32]`, `[bool; 16]`) become total functions `Nat → Nat` /
  `Nat → Bool`; every indexing operation that Rust bounds-checks (and panics
  on when out of range) is guarded explicitly, and a failed guard makes the
  whole operation return `none`.
* `cycle` is therefore partial: `none` models a Rust panic (out-of-bounds
  index, stack-pointer underflow) or non-termination (the `FX0A` busy loop
  that spins forever when no key is pressed, lines 354-368 of chip8.rs).
* The random byte drawn by opcode `CXNN` (`rand::random()`) is an input of
  the step function (`rnd`), since it comes from outside the core.
* The trace output (`println!`) and the `debug` flag only produce console
  text in the source; they have no state effect and are dropped.
-/

namespace Chip8

/-- The CPU state, mirroring `pub struct CHIP8` (chip8.rs lines 3-18). -/
structure CHIP8 where
  memory : Nat → Nat
  vregister : Nat → Nat
  index_register : Nat
  program_counter : Nat
  stack_pointer : Nat
  stack : Nat → Nat
  delay_timer : Nat
  sound_timer : Nat
  display : Nat → Nat
  keypad : Nat → Bool
  debug : Bool

/-- Pointwise update of a function-modelled array: `a[i] = v`. -/
def upd (f : Nat → Nat) (i v : Nat) : Nat → Nat :=
  fun j => if j = i then v else f j

/-- `CHIP8::new()` (chip8.rs lines 21-38): zeroed state, PC at 0x200. -/
def new : CHIP8 where
  memory := fun _ => 0
  vregister := fun _ => 0
  index_register := 0x0
  program_counter := 0x200
  stack_pointer := 0
  stack := fun _ => 0
  delay_timer := 0
  sound_timer := 0
  display := fun _ => 0
  keypad := fun _ => false
  debug := false

/-- The write loop of `load_rom` (chip8.rs lines 74-76): byte `i` of the data
goes to `memory[0x200 + i]`; an index past 4095 is a bounds-check panic in
Rust, modelled as `none`. -/
def load_romAux : List Nat → Nat → (Nat → Nat) → Option (Nat → Nat)
  | [], _, mem => some mem
  | b :: rest, i, mem =>
    if 0x200 + i < 4096 then load_romAux rest (i + 1) (upd mem (0x200 + i) b)
    else none

/-- `load_rom` (chip8.rs lines 69-77).  The file contents (`fs::read`) are an
external input, so the byte sequence is a parameter. -/
def load_rom (data : List Nat) (s : CHIP8) : Option CHIP8 :=
  match load_romAux data 0 s.memory with
  | none => none
  | some mem => some { s with memory := mem }

/-- The key-scan loop of opcode FX0A (chip8.rs lines 358-365): scan `r`
further keypad flags starting at index `i`, returning the first index whose
flag is true.  Structural recursion on the number of remaining iterations. -/
def findKeyAux (kp : Nat → Bool) : Nat → Nat → Option Nat
  | 0, _ => none
  | r + 1, i => if kp i then some i else findKeyAux kp r (i + 1)

/-- One pass of `for (i, &k) in self.keypad.iter().enumerate()`: 16 flags
from index 0.  `none` when no key is pressed: the surrounding
`while key.is_none()` loop then never terminates, because the keypad cannot
change during `cycle`. -/
def findKey (kp : Nat → Bool) : Option Nat :=
  findKeyAux kp 16 0

/-- The sprite-fetch loop of opcode DXYN (chip8.rs lines 306-308): reads
`memory[(I + i) % 65536]` for `i = 0 .. n-1` (the index addition is a `u16`
addition).  `none` on an out-of-bounds memory index. -/
def readBytes (mem : Nat → Nat) (I : Nat) : Nat → Option (List Nat)
  | 0 => some []
  | n + 1 =>
    match readBytes mem I n with
    | none => none
    | some bs =>
      if (I + n) % 65536 < 4096 then some (bs ++ [mem ((I + n) % 65536)])
      else none

/-- The inner column loop of opcode DXYN (chip8.rs lines 312-321): `r` more
columns starting at `col` (the full loop runs `col = 0..7`, i.e. `r = 8`).
If bit `7 - col` of `byte` is set (`(byte >> (7 - col)) & 0x01`, written
`byte / 2 ^ (7 - col) % 2`), XOR-toggle the display cell at linear index
`(x + col) + yrow * 64`; an index `≥ 2048` is a bounds-check panic, modelled
as `none`. -/
def drawColsAux (byte x yrow : Nat) : Nat → Nat → (Nat → Nat) → Option (Nat → Nat)
  | 0, _, disp => some disp
  | r + 1, col, disp =>
    if byte / 2 ^ (7 - col) % 2 = 1 then
      -- pixel_index = (x + col) + (y + row) * 64, written out at each use
      if (x + col) + yrow * 64 < 2048 then
        drawColsAux byte x yrow r (col + 1)
          (upd disp ((x + col) + yrow * 64) (disp ((x + col) + yrow * 64) ^^^ 1))
      else none
    else drawColsAux byte x yrow r (col + 1) disp

/-- The outer row loop of opcode DXYN (chip8.rs lines 311-322). -/
def drawRows (x y : Nat) : List Nat → Nat → (Nat → Nat) → Option (Nat → Nat)
  | [], _, disp => some disp
  | b :: rest, row, disp =>
    match drawColsAux b x (y + row) 8 0 disp with
    | none => none
    | some d => drawRows x y rest (row + 1) d

/-- The store loop of opcode FX55 (chip8.rs lines 394-402): `r` more
iterations starting at register index `i` (the full loop `for i in 0..=x`
runs `x + 1` iterations from 0): `memory[I + i] = vregister[i]` (a `usize`
addition); an index past 4095 is a bounds-check panic, modelled as `none`. -/
def storeRegsAux (vreg : Nat → Nat) (I : Nat) : Nat → Nat → (Nat → Nat) → Option (Nat → Nat)
  | 0, _, mem => some mem
  | r + 1, i, mem =>
    if I + i < 4096 then storeRegsAux vreg I r (i + 1) (upd mem (I + i) (vreg i))
    else none

/-- The load loop of opcode FX65 (chip8.rs lines 403-411): `r` more
iterations starting at register index `i`: `vregister[i] = memory[I + i]`. -/
def loadRegsAux (mem : Nat → Nat) (I : Nat) : Nat → Nat → (Nat → Nat) → Option (Nat → Nat)
  | 0, _, vreg => some vreg
  | r + 1, i, vreg =>
    if I + i < 4096 then loadRegsAux mem I r (i + 1) (upd vreg i (mem (I + i)))
    else none

/-- The big `match opcode` of `cycle` (chip8.rs lines 93-422).  Decode
arithmetic is written with `/`, `%` on `Nat`; for a 16-bit opcode these agree
with the source's mask-and-shift forms: `(opcode & 0x0F00) >> 8` is
`opcode / 256 % 16`, `(opcode & 0x00F0) >> 4` is `opcode / 16 % 16`,
`opcode & 0x00FF` is `opcode % 256`, `opcode & 0x0FFF` is `opcode % 4096`,
and `opcode & 0x000F` is `opcode % 16`. -/
def execOp (rnd : Nat) (s : CHIP8) (opcode : Nat) : Option CHIP8 :=
  if opcode = 0x00E0 then
    -- clear the display (lines 94-102)
    some { s with display := fun _ => 0,
                  program_counter := (s.program_counter + 2) % 65536 }
  else if opcode = 0x00EE then
    -- return from a subroutine (lines 103-112); `stack_pointer -= 1` at 0 and
    -- the subsequent stack read are a panic in both build modes
    if 1 ≤ s.stack_pointer ∧ s.stack_pointer - 1 < 16 then
      some { s with stack_pointer := s.stack_pointer - 1,
                    program_counter := (s.stack (s.stack_pointer - 1) + 2) % 65536 }
    else none
  else if 0x1000 ≤ opcode ∧ opcode ≤ 0x1FFF then
    -- jump to nnn (lines 113-121)
    some { s with program_counter := opcode % 4096 }
  else if 0x2000 ≤ opcode ∧ opcode ≤ 0x2FFF then
    -- call subroutine at nnn (lines 122-131); the stack write panics if the
    -- stack pointer is at or past 16
    if s.stack_pointer < 16 then
      some { s with stack := upd s.stack s.stack_pointer s.program_counter,
                    stack_pointer := (s.stack_pointer + 1) % 256,
                    program_counter := opcode % 4096 }
    else none
  else if 0x3000 ≤ opcode ∧ opcode ≤ 0x3FFF then
    -- skip next instruction if Vx == kk (lines 132-149)
    let reg := opcode / 256 % 16
    let kk := opcode % 256
    let pc1 := if s.vregister reg = kk then (s.program_counter + 2) % 65536
               else s.program_counter
    some { s with program_counter := (pc1 + 2) % 65536 }
  else if 0x4000 ≤ opcode ∧ opcode ≤ 0x4FFF then
    -- skip next instruction if Vx != kk (lines 150-167)
    let reg := opcode / 256 % 16
    let kk := opcode % 256
    let pc1 := if s.vregister reg ≠ kk then (s.program_counter + 2) % 65536
               else s.program_counter
    some { s with program_counter := (pc1 + 2) % 65536 }
  else if 0x5000 ≤ opcode ∧ opcode ≤ 0x5FFF then
    -- skip next instruction if Vx == Vy (lines 168-185)
    let rx := opcode / 256 % 16
    let ry := opcode / 16 % 16
    let pc1 := if s.vregister rx = s.vregister ry then (s.program_counter + 2) % 65536
               else s.program_counter
    some { s with program_counter := (pc1 + 2) % 65536 }
  else if 0x6000 ≤ opcode ∧ opcode ≤ 0x6FFF then
    -- put value kk into register Vx (lines 186-197)
    let reg := opcode / 256 % 16
    let kk := opcode % 256
    some { s with vregister := upd s.vregister reg kk,
                  program_counter := (s.program_counter + 2) % 65536 }
  else if 0x7000 ≤ opcode ∧ opcode ≤ 0x7FFF then
    -- Vx = Vx wrapping_add kk (lines 198-209)
    let reg := opcode / 256 % 16
    let kk := opcode % 256
    some { s with vregister := upd s.vregister reg ((s.vregister reg + kk) % 256),
                  program_counter := (s.program_counter + 2) % 65536 }
  else if 0x8000 ≤ opcode ∧ opcode ≤ 0x8FFF then
    -- arithmetic/logic variants on the last nibble (lines 210-264)
    let rx := opcode / 256 % 16
    let ry := opcode / 16 % 16
    let ln := opcode % 16
    let s1 :=
      if ln = 0 then
        { s with vregister := upd s.vregister rx (s.vregister ry) }
      else if ln = 1 then
        { s with vregister := upd s.vregister rx (s.vregister rx ||| s.vregister ry) }
      else if ln = 2 then
        { s with vregister := upd s.vregister rx (s.vregister rx &&& s.vregister ry) }
      else if ln = 3 then
        { s with vregister := upd s.vregister rx (s.vregister rx ^^^ s.vregister ry) }
      else if ln = 4 then
        -- overflowing_add: wrapped sum into Vx first, then carry into VF
        let sum := s.vregister rx + s.vregister ry
        { s with vregister := upd (upd s.vregister rx (sum % 256)) 15
                                  (if 256 ≤ sum then 1 else 0) }
      else if ln = 5 then
        -- VF = (Vx > Vy) first, then Vx = Vx wrapping_sub Vy reading the
        -- registers again (so a VF operand sees the fresh flag)
        let v := upd s.vregister 15 (if s.vregister ry < s.vregister rx then 1 else 0)
        { s with vregister := upd v rx ((v rx + 256 - v ry) % 256) }
      else if ln = 6 then
        -- VF = lsb first, then Vx /= 2 reading the register again
        let v := upd s.vregister 15 (if s.vregister rx % 2 = 1 then 1 else 0)
        { s with vregister := upd v rx (v rx / 2) }
      else if ln = 7 then
        -- VF = (Vy > Vx) first, then Vx = Vy wrapping_sub Vx
        let v := upd s.vregister 15 (if s.vregister rx < s.vregister ry then 1 else 0)
        { s with vregister := upd v rx ((v ry + 256 - v rx) % 256) }
      else if ln = 0xE then
        -- VF = msb first, then Vx = Vx wrapping_mul 2
        let v := upd s.vregister 15 (if s.vregister rx / 128 % 2 = 1 then 1 else 0)
        { s with vregister := upd v rx (v rx * 2 % 256) }
      else s  -- unknown 0x8xxx variant: log only (line 260)
    some { s1 with program_counter := (s1.program_counter + 2) % 65536 }
  else if 0x9000 ≤ opcode ∧ opcode ≤ 0x9FFF then
    -- skip next instruction if Vx != Vy (lines 265-274)
    let rx := opcode / 256 % 16
    let ry := opcode / 16 % 16
    let pc1 := if s.vregister rx ≠ s.vregister ry then (s.program_counter + 2) % 65536
               else s.program_counter
    some { s with program_counter := (pc1 + 2) % 65536 }
  else if 0xA000 ≤ opcode ∧ opcode ≤ 0xAFFF then
    -- I = nnn (lines 275-280)
    some { s with index_register := opcode % 4096,
                  program_counter := (s.program_counter + 2) % 65536 }
  else if 0xB000 ≤ opcode ∧ opcode ≤ 0xBFFF then
    -- jump to nnn + V0 (lines 281-285), a u16 addition
    some { s with program_counter := (opcode % 4096 + s.vregister 0) % 65536 }
  else if 0xC000 ≤ opcode ∧ opcode ≤ 0xCFFF then
    -- Vx = random byte AND kk (lines 286-293); the byte is the input `rnd`
    let reg := opcode / 256 % 16
    let kk := opcode % 256
    some { s with vregister := upd s.vregister reg (rnd % 256 &&& kk),
                  program_counter := (s.program_counter + 2) % 65536 }
  else if 0xD000 ≤ opcode ∧ opcode ≤ 0xDFFF then
    -- draw n-byte sprite at (Vx, Vy) (lines 294-325); x and y are read
    -- before VF is reset to 0
    let n := opcode % 16
    let x := s.vregister (opcode / 256 % 16)
    let y := s.vregister (opcode / 16 % 16)
    let v := upd s.vregister 15 0
    match readBytes s.memory s.index_register n with
    | none => none
    | some reading_bytes =>
      match drawRows x y reading_bytes 0 s.display with
      | none => none
      | some disp =>
        some { s with vregister := v, display := disp,
                      program_counter := (s.program_counter + 2) % 65536 }
  else if 0xE000 ≤ opcode ∧ opcode ≤ 0xEFFF then
    -- key tests (lines 326-345); keypad indexing panics when Vx ≥ 16
    let reg := opcode / 256 % 16
    let ln := opcode % 256
    if ln = 0x9E then
      if s.vregister reg < 16 then
        let pc1 := if s.keypad (s.vregister reg) = true then (s.program_counter + 2) % 65536
                   else s.program_counter
        some { s with program_counter := (pc1 + 2) % 65536 }
      else none
    else if ln = 0xA1 then
      if s.vregister reg < 16 then
        let pc1 := if s.keypad (s.vregister reg) = false then (s.program_counter + 2) % 65536
                   else s.program_counter
        some { s with program_counter := (pc1 + 2) % 65536 }
      else none
    else
      some { s with program_counter := (s.program_counter + 2) % 65536 }
  else if 0xF000 ≤ opcode ∧ opcode ≤ 0xFFFF then
    -- F-class variants on the last byte (lines 346-416)
    let reg := opcode / 256 % 16
    let ln := opcode % 256
    let s1? : Option CHIP8 :=
      if ln = 0x07 then
        some { s with vregister := upd s.vregister reg s.delay_timer }
      else if ln = 0x0A then
        -- blocking key wait (lines 354-368): the busy loop diverges when no
        -- key is pressed, hence `none` from `findKey`
        match findKey s.keypad with
        | none => none
        | some k => some { s with vregister := upd s.vregister reg k }
      else if ln = 0x15 then
        some { s with delay_timer := s.vregister reg }
      else if ln = 0x18 then
        some { s with sound_timer := s.vregister reg }
      else if ln = 0x1E then
        -- I = I + Vx, a u16 addition
        some { s with index_register := (s.index_register + s.vregister reg) % 65536 }
      else if ln = 0x29 then
        -- I = font start + digit * 5 (lines 378-386)
        some { s with index_register := 0x50 + s.vregister reg * 5 }
      else if ln = 0x33 then
        -- BCD store at I, I+1, I+2 (lines 387-393); I+1 and I+2 are u16
        -- additions, each memory write is bounds-checked
        if s.index_register < 4096 ∧ (s.index_register + 1) % 65536 < 4096 ∧
            (s.index_register + 2) % 65536 < 4096 then
          let value := s.vregister reg
          let mem1 := upd (upd (upd s.memory s.index_register (value / 100))
                     ((s.index_register + 1) % 65536) (value / 10 % 10))
                ((s.index_register + 2) % 65536) (value % 10)
          some { s with memory := mem1 }
        else none
      else if ln = 0x55 then
        -- `for i in 0..=reg`: reg + 1 iterations from index 0
        match storeRegsAux s.vregister s.index_register (reg + 1) 0 s.memory with
        | none => none
        | some mem => some { s with memory := mem }
      else if ln = 0x65 then
        match loadRegsAux s.memory s.index_register (reg + 1) 0 s.vregister with
        | none => none
        | some vreg => some { s with vregister := vreg }
      else some s  -- unknown 0xFxxx variant: log only (line 412)
    match s1? with
    | none => none
    | some s1 => some { s1 with program_counter := (s1.program_counter + 2) % 65536 }
  else
    -- unknown opcode (lines 417-421): log only, no state change at all;
    -- in particular the program counter is NOT advanced
    some s

/-- Fetch (chip8.rs lines 80-83) followed by decode/execute: read the two
bytes at the program counter (each read bounds-checked; `pc + 1` is a u16
addition) and compose them most-significant-byte-first.  For byte values,
`(msb << 8) | lsb` is `msb * 256 + lsb`. -/
def execInstr (rnd : Nat) (s : CHIP8) : Option CHIP8 :=
  if s.program_counter < 4096 ∧ (s.program_counter + 1) % 65536 < 4096 then
    execOp rnd s (s.memory s.program_counter * 256 +
                  s.memory ((s.program_counter + 1) % 65536))
  else none

/-- The per-cycle timer decrement (chip8.rs lines 424-429). -/
def tickTimers (s : CHIP8) : CHIP8 :=
  let s1 := if 0 < s.delay_timer then { s with delay_timer := s.delay_timer - 1 } else s
  if 0 < s1.sound_timer then { s1 with sound_timer := s1.sound_timer - 1 } else s1

/-- `cycle` (chip8.rs lines 79-432): one fetch-decode-execute step followed by
the timer decrement. -/
def cycle (rnd : Nat) (s : CHIP8) : Option CHIP8 :=
  (execInstr rnd s).map tickTimers

/-!
Specification-side definitions, phrased after the spec's description of the
draw instruction ("for each bit of each byte, if the bit is 1, XOR the
corresponding framebuffer pixel at (x+col, y+row)").  They are compared with
the loop implementation above by the theorems below.
-/

/-- Pixel indices named by the spec for columns `col`, `col+1`, … (`r` many)
of one sprite byte: those columns whose bit is 1 contribute the linear index
`(x + col) + yrow * 64`. -/
def colHits (byte x yrow : Nat) : Nat → Nat → List Nat
  | 0, _ => []
  | r + 1, col =>
    (if byte / 2 ^ (7 - col) % 2 = 1 then [(x + col) + yrow * 64] else []) ++
      colHits byte x yrow r (col + 1)

/-- Pixel indices named by the spec for all bits of all sprite bytes,
starting at row `row`. -/
def rowHits (x y : Nat) : List Nat → Nat → List Nat
  | [], _ => []
  | b :: rest, row => colHits b x (y + row) 8 0 ++ rowHits x y rest (row + 1)

/-- XOR-toggle each listed display cell in turn (duplicates toggle again). -/
def toggleList : (Nat → Nat) → List Nat → (Nat → Nat)
  | disp, [] => disp
  | disp, q :: rest => toggleList (upd disp q (disp q ^^^ 1)) rest

/-- The `n` bytes at `memory[I .. I+n-1]`, as named by the spec ("read N
bytes starting at the index register"). -/
def spriteBytes (mem : Nat → Nat) (I n : Nat) : List Nat :=
  (List.range n).map (fun i => mem (I + i))

/-- All pixel indices the spec says a DXYN instruction touches, given the
operand register indices `rx`, `ry` and the sprite height `n`. -/
def spriteHits (s : CHIP8) (rx ry n : Nat) : List Nat :=
  rowHits (s.vregister rx) (s.vregister ry) (spriteBytes s.memory s.index_register n) 0

/-!
Concrete states used by the witness and counterexample theorems.
-/

/-- Key wait FX0A with destination V5 at 0x200; key 3 (and only key 3) held. -/
def stKeyHeld : CHIP8 :=
  { new with memory := upd (upd new.memory 0x200 0xF5) 0x201 0x0A,
             keypad := fun i => i == 3 }

/-- Key wait FX0A with destination V5 at 0x200; no key held. -/
def stKeyNone : CHIP8 :=
  { new with memory := upd (upd new.memory 0x200 0xF5) 0x201 0x0A }

/-- Draw D011 at 0x200: 1-byte sprite 0x80 at I = 0x300, drawn at (V0, V1) =
(0, 0). -/
def stDraw : CHIP8 :=
  { new with memory := upd (upd (upd new.memory 0x200 0xD0) 0x201 0x11) 0x300 0x80,
             index_register := 0x300 }

/-- SUB with destination VF: opcode 8F05 at 0x200, VF = 5, V0 = 3. -/
def stSubVF : CHIP8 :=
  { new with memory := upd (upd new.memory 0x200 0x8F) 0x201 0x05,
             vregister := upd (upd new.vregister 15 5) 0 3 }

/-- SUB 8125 at 0x200 (V1 = V1 - V2), V1 = 5, V2 = 3. -/
def stSub : CHIP8 :=
  { new with memory := upd (upd new.memory 0x200 0x81) 0x201 0x25,
             vregister := upd (upd new.vregister 1 5) 2 3 }

/-- SUBN 8127 at 0x200 (V1 = V2 - V1), V1 = 5, V2 = 3. -/
def stSubn : CHIP8 :=
  { new with memory := upd (upd new.memory 0x200 0x81) 0x201 0x27,
             vregister := upd (upd new.vregister 1 5) 2 3 }

/-- ADD immediate with destination VF: opcode 7F01 at 0x200, VF = 0. -/
def stAddVF : CHIP8 :=
  { new with memory := upd (upd new.memory 0x200 0x7F) 0x201 0x01 }

/-- ADD immediate 7A05 at 0x200, V10 = 200. -/
def stAddImm : CHIP8 :=
  { new with memory := upd (upd new.memory 0x200 0x7A) 0x201 0x05,
             vregister := upd new.vregister 10 200 }

/-- ADD register 8124 at 0x200 (V1 = V1 + V2), V1 = 255, V2 = 1. -/
def stAddReg : CHIP8 :=
  { new with memory := upd (upd new.memory 0x200 0x81) 0x201 0x24,
             vregister := upd (upd new.vregister 1 255) 2 1 }

/-- CALL 0x300 at 0x200 (opcode 2300), with 00EE at 0x300. -/
def stCall : CHIP8 :=
  { new with memory := upd (upd (upd new.memory 0x200 0x23) 0x301 0xEE) 0x300 0x00 }

/-- Unknown opcode 0x0000 at 0x200, delay timer 5, sound timer 0. -/
def stTimer : CHIP8 :=
  { new with delay_timer := 5 }

/-- FX55 (F255) at 0x200: store V0..V2 at I = 0x400; V0 = 10, V1 = 11,
V2 = 12. -/
def stStore : CHIP8 :=
  { new with memory := upd (upd new.memory 0x200 0xF2) 0x201 0x55,
             index_register := 0x400,
             vregister := upd (upd (upd new.vregister 0 10) 1 11) 2 12 }

/-- FX65 (F265) at 0x200: load V0..V2 from I = 0x400; memory 0x400..0x402 =
7, 8, 9. -/
def stLoad : CHIP8 :=
  { new with memory := upd (upd (upd (upd (upd new.memory 0x200 0xF2) 0x201 0x65)
                             0x400 7) 0x401 8) 0x402 9,
             index_register := 0x400 }

/-- Draw D011 at 0x200: 1-byte sprite 0x01 at I = 0x300, drawn at (V0, V1) =
(60, 0): the set bit is at column 7, so x + col = 67 spills past column 63
into linear index 67. -/
def stSpill : CHIP8 :=
  { new with memory := upd (upd (upd new.memory 0x200 0xD0) 0x201 0x11) 0x300 0x01,
             index_register := 0x300,
             vregister := upd new.vregister 0 60 }

/-- Draw D011 at 0x200: 1-byte sprite 0x01 at I = 0x300, drawn at (V0, V1) =
(60, 32): the set bit lands at linear index 67 + 32 * 64 = 2115 ≥ 2048. -/
def stOffscreen : CHIP8 :=
  { new with memory := upd (upd (upd new.memory 0x200 0xD0) 0x201 0x11) 0x300 0x01,
             index_register := 0x300,
             vregister := upd (upd new.vregister 0 60) 1 32 }

/-!
Helper lemmas: array updates, timer tick projections, fetch plumbing.
-/

theorem upd_same (f : Nat → Nat) (i v : Nat) : upd f i v i = v := by
  simp [upd]

theorem upd_other (f : Nat → Nat) (i v j : Nat) (h : j ≠ i) : upd f i v j = f j := by
  simp [upd, h]

theorem tickTimers_program_counter (s : CHIP8) :
    (tickTimers s).program_counter = s.program_counter := by
  simp only [tickTimers]
  split_ifs <;> rfl

theorem tickTimers_memory (s : CHIP8) : (tickTimers s).memory = s.memory := by
  simp only [tickTimers]
  split_ifs <;> rfl

theorem tickTimers_vregister (s : CHIP8) : (tickTimers s).vregister = s.vregister := by
  simp only [tickTimers]
  split_ifs <;> rfl

theorem tickTimers_index_register (s : CHIP8) :
    (tickTimers s).index_register = s.index_register := by
  simp only [tickTimers]
  split_ifs <;> rfl

theorem tickTimers_stack (s : CHIP8) : (tickTimers s).stack = s.stack := by
  simp only [tickTimers]
  split_ifs <;> rfl

theorem tickTimers_stack_pointer (s : CHIP8) :
    (tickTimers s).stack_pointer = s.stack_pointer := by
  simp only [tickTimers]
  split_ifs <;> rfl

theorem tickTimers_display (s : CHIP8) : (tickTimers s).display = s.display := by
  simp only [tickTimers]
  split_ifs <;> rfl

theorem tickTimers_delay (s : CHIP8) :
    (tickTimers s).delay_timer =
      if 0 < s.delay_timer then s.delay_timer - 1 else s.delay_timer := by
  simp only [tickTimers]
  split_ifs <;> rfl

theorem tickTimers_sound (s : CHIP8) :
    (tickTimers s).sound_timer =
      if 0 < s.sound_timer then s.sound_timer - 1 else s.sound_timer := by
  simp only [tickTimers]
  split_ifs <;> rfl

theorem execInstr_eq (rnd : Nat) (s : CHIP8) (h : s.program_counter + 1 < 4096) :
    execInstr rnd s =
      execOp rnd s (s.memory s.program_counter * 256 + s.memory (s.program_counter + 1)) := by
  unfold execInstr
  have h1 : (s.program_counter + 1) % 65536 = s.program_counter + 1 := by omega
  rw [h1, if_pos (by omega : s.program_counter < 4096 ∧ s.program_counter + 1 < 4096)]

theorem cycle_of_execInstr (rnd : Nat) (s s1 : CHIP8) (h : execInstr rnd s = some s1) :
    cycle rnd s = some (tickTimers s1) := by
  unfold cycle
  rw [h]
  rfl

theorem cycle_of_execInstr_none (rnd : Nat) (s : CHIP8) (h : execInstr rnd s = none) :
    cycle rnd s = none := by
  unfold cycle
  rw [h]
  rfl

/-!
Dispatch lemmas: what `execOp` does on each opcode class the claims need.
-/

theorem execOp_unknown (rnd : Nat) (s : CHIP8) (op : Nat) (h1 : op < 0x1000)
    (h2 : op ≠ 0x00E0) (h3 : op ≠ 0x00EE) : execOp rnd s op = some s := by
  unfold execOp
  rw [if_neg h2, if_neg h3,
      if_neg (by omega : ¬(0x1000 ≤ op ∧ op ≤ 0x1FFF)),
      if_neg (by omega : ¬(0x2000 ≤ op ∧ op ≤ 0x2FFF)),
      if_neg (by omega : ¬(0x3000 ≤ op ∧ op ≤ 0x3FFF)),
      if_neg (by omega : ¬(0x4000 ≤ op ∧ op ≤ 0x4FFF)),
      if_neg (by omega : ¬(0x5000 ≤ op ∧ op ≤ 0x5FFF)),
      if_neg (by omega : ¬(0x6000 ≤ op ∧ op ≤ 0x6FFF)),
      if_neg (by omega : ¬(0x7000 ≤ op ∧ op ≤ 0x7FFF)),
      if_neg (by omega : ¬(0x8000 ≤ op ∧ op ≤ 0x8FFF)),
      if_neg (by omega : ¬(0x9000 ≤ op ∧ op ≤ 0x9FFF)),
      if_neg (by omega : ¬(0xA000 ≤ op ∧ op ≤ 0xAFFF)),
      if_neg (by omega : ¬(0xB000 ≤ op ∧ op ≤ 0xBFFF)),
      if_neg (by omega : ¬(0xC000 ≤ op ∧ op ≤ 0xCFFF)),
      if_neg (by omega : ¬(0xD000 ≤ op ∧ op ≤ 0xDFFF)),
      if_neg (by omega : ¬(0xE000 ≤ op ∧ op ≤ 0xEFFF)),
      if_neg (by omega : ¬(0xF000 ≤ op ∧ op ≤ 0xFFFF))]

theorem execOp_ret (rnd : Nat) (s : CHIP8) :
    execOp rnd s 0x00EE =
      if 1 ≤ s.stack_pointer ∧ s.stack_pointer - 1 < 16 then
        some { s with stack_pointer := s.stack_pointer - 1,
                      program_counter := (s.stack (s.stack_pointer - 1) + 2) % 65536 }
      else none := by
  unfold execOp
  rw [if_neg (by omega : ¬((0x00EE : Nat) = 0x00E0)), if_pos rfl]

theorem execOp_call (rnd : Nat) (s : CHIP8) (nnn : Nat) (h : nnn < 4096) :
    execOp rnd s (0x2000 + nnn) =
      if s.stack_pointer < 16 then
        some { s with stack := upd s.stack s.stack_pointer s.program_counter,
                      stack_pointer := (s.stack_pointer + 1) % 256,
                      program_counter := nnn }
      else none := by
  set op := 0x2000 + nnn with hop
  unfold execOp
  rw [if_neg (by omega : ¬(op = 0x00E0)), if_neg (by omega : ¬(op = 0x00EE)),
      if_neg (by omega : ¬(0x1000 ≤ op ∧ op ≤ 0x1FFF)),
      if_pos (by omega : 0x2000 ≤ op ∧ op ≤ 0x2FFF)]
  have e1 : op % 4096 = nnn := by omega
  rw [e1]

theorem execOp_addImm (rnd : Nat) (s : CHIP8) (rx kk : Nat) (hrx : rx < 16)
    (hkk : kk < 256) :
    execOp rnd s (0x7000 + rx * 256 + kk) =
      some { s with vregister := upd s.vregister rx ((s.vregister rx + kk) % 256),
                    program_counter := (s.program_counter + 2) % 65536 } := by
  set op := 0x7000 + rx * 256 + kk with hop
  unfold execOp
  rw [if_neg (by omega : ¬(op = 0x00E0)), if_neg (by omega : ¬(op = 0x00EE)),
      if_neg (by omega : ¬(0x1000 ≤ op ∧ op ≤ 0x1FFF)),
      if_neg (by omega : ¬(0x2000 ≤ op ∧ op ≤ 0x2FFF)),
      if_neg (by omega : ¬(0x3000 ≤ op ∧ op ≤ 0x3FFF)),
      if_neg (by omega : ¬(0x4000 ≤ op ∧ op ≤ 0x4FFF)),
      if_neg (by omega : ¬(0x5000 ≤ op ∧ op ≤ 0x5FFF)),
      if_neg (by omega : ¬(0x6000 ≤ op ∧ op ≤ 0x6FFF)),
      if_pos (by omega : 0x7000 ≤ op ∧ op ≤ 0x7FFF)]
  have e1 : op / 256 % 16 = rx := by omega
  have e2 : op % 256 = kk := by omega
  rw [e1, e2]

theorem execOp_add (rnd : Nat) (s : CHIP8) (rx ry : Nat) (hrx : rx < 16)
    (hry : ry < 16) :
    execOp rnd s (0x8000 + rx * 256 + ry * 16 + 4) =
      some { s with
        vregister := upd (upd s.vregister rx ((s.vregister rx + s.vregister ry) % 256)) 15
                         (if 256 ≤ s.vregister rx + s.vregister ry then 1 else 0),
        program_counter := (s.program_counter + 2) % 65536 } := by
  set op := 0x8000 + rx * 256 + ry * 16 + 4 with hop
  unfold execOp
  rw [if_neg (by omega : ¬(op = 0x00E0)), if_neg (by omega : ¬(op = 0x00EE)),
      if_neg (by omega : ¬(0x1000 ≤ op ∧ op ≤ 0x1FFF)),
      if_neg (by omega : ¬(0x2000 ≤ op ∧ op ≤ 0x2FFF)),
      if_neg (by omega : ¬(0x3000 ≤ op ∧ op ≤ 0x3FFF)),
      if_neg (by omega : ¬(0x4000 ≤ op ∧ op ≤ 0x4FFF)),
      if_neg (by omega : ¬(0x5000 ≤ op ∧ op ≤ 0x5FFF)),
      if_neg (by omega : ¬(0x6000 ≤ op ∧ op ≤ 0x6FFF)),
      if_neg (by omega : ¬(0x7000 ≤ op ∧ op ≤ 0x7FFF)),
      if_pos (by omega : 0x8000 ≤ op ∧ op ≤ 0x8FFF)]
  have e1 : op % 16 = 4 := by omega
  have e2 : op / 256 % 16 = rx := by omega
  have e3 : op / 16 % 16 = ry := by omega
  rw [e1, e2, e3]
  rfl

theorem execOp_sub (rnd : Nat) (s : CHIP8) (rx ry : Nat) (hrx : rx < 16)
    (hry : ry < 16) :
    execOp rnd s (0x8000 + rx * 256 + ry * 16 + 5) =
      some { s with
        vregister :=
          upd (upd s.vregister 15 (if s.vregister ry < s.vregister rx then 1 else 0)) rx
            ((upd s.vregister 15 (if s.vregister ry < s.vregister rx then 1 else 0) rx + 256 -
              upd s.vregister 15 (if s.vregister ry < s.vregister rx then 1 else 0) ry) % 256),
        program_counter := (s.program_counter + 2) % 65536 } := by
  set op := 0x8000 + rx * 256 + ry * 16 + 5 with hop
  unfold execOp
  rw [if_neg (by omega : ¬(op = 0x00E0)), if_neg (by omega : ¬(op = 0x00EE)),
      if_neg (by omega : ¬(0x1000 ≤ op ∧ op ≤ 0x1FFF)),
      if_neg (by omega : ¬(0x2000 ≤ op ∧ op ≤ 0x2FFF)),
      if_neg (by omega : ¬(0x3000 ≤ op ∧ op ≤ 0x3FFF)),
      if_neg (by omega : ¬(0x4000 ≤ op ∧ op ≤ 0x4FFF)),
      if_neg (by omega : ¬(0x5000 ≤ op ∧ op ≤ 0x5FFF)),
      if_neg (by omega : ¬(0x6000 ≤ op ∧ op ≤ 0x6FFF)),
      if_neg (by omega : ¬(0x7000 ≤ op ∧ op ≤ 0x7FFF)),
      if_pos (by omega : 0x8000 ≤ op ∧ op ≤ 0x8FFF)]
  have e1 : op % 16 = 5 := by omega
  have e2 : op / 256 % 16 = rx := by omega
  have e3 : op / 16 % 16 = ry := by omega
  rw [e1, e2, e3]
  rfl

theorem execOp_subn (rnd : Nat) (s : CHIP8) (rx ry : Nat) (hrx : rx < 16)
    (hry : ry < 16) :
    execOp rnd s (0x8000 + rx * 256 + ry * 16 + 7) =
      some { s with
        vregister :=
          upd (upd s.vregister 15 (if s.vregister rx < s.vregister ry then 1 else 0)) rx
            ((upd s.vregister 15 (if s.vregister rx < s.vregister ry then 1 else 0) ry + 256 -
              upd s.vregister 15 (if s.vregister rx < s.vregister ry then 1 else 0) rx) % 256),
        program_counter := (s.program_counter + 2) % 65536 } := by
  set op := 0x8000 + rx * 256 + ry * 16 + 7 with hop
  unfold execOp
  rw [if_neg (by omega : ¬(op = 0x00E0)), if_neg (by omega : ¬(op = 0x00EE)),
      if_neg (by omega : ¬(0x1000 ≤ op ∧ op ≤ 0x1FFF)),
      if_neg (by omega : ¬(0x2000 ≤ op ∧ op ≤ 0x2FFF)),
      if_neg (by omega : ¬(0x3000 ≤ op ∧ op ≤ 0x3FFF)),
      if_neg (by omega : ¬(0x4000 ≤ op ∧ op ≤ 0x4FFF)),
      if_neg (by omega : ¬(0x5000 ≤ op ∧ op ≤ 0x5FFF)),
      if_neg (by omega : ¬(0x6000 ≤ op ∧ op ≤ 0x6FFF)),
      if_neg (by omega : ¬(0x7000 ≤ op ∧ op ≤ 0x7FFF)),
      if_pos (by omega : 0x8000 ≤ op ∧ op ≤ 0x8FFF)]
  have e1 : op % 16 = 7 := by omega
  have e2 : op / 256 % 16 = rx := by omega
  have e3 : op / 16 % 16 = ry := by omega
  rw [e1, e2, e3]
  rfl

theorem execOp_draw_some (rnd : Nat) (s : CHIP8) (rx ry n : Nat)
    (hrx : rx < 16) (hry : ry < 16) (hn : n < 16)
    (bs : List Nat) (disp : Nat → Nat)
    (hrb : readBytes s.memory s.index_register n = some bs)
    (hdr : drawRows (s.vregister rx) (s.vregister ry) bs 0 s.display = some disp) :
    execOp rnd s (0xD000 + rx * 256 + ry * 16 + n) =
      some { s with vregister := upd s.vregister 15 0, display := disp,
                    program_counter := (s.program_counter + 2) % 65536 } := by
  set op := 0xD000 + rx * 256 + ry * 16 + n with hop
  unfold execOp
  rw [if_neg (by omega : ¬(op = 0x00E0)), if_neg (by omega : ¬(op = 0x00EE)),
      if_neg (by omega : ¬(0x1000 ≤ op ∧ op ≤ 0x1FFF)),
      if_neg (by omega : ¬(0x2000 ≤ op ∧ op ≤ 0x2FFF)),
      if_neg (by omega : ¬(0x3000 ≤ op ∧ op ≤ 0x3FFF)),
      if_neg (by omega : ¬(0x4000 ≤ op ∧ op ≤ 0x4FFF)),
      if_neg (by omega : ¬(0x5000 ≤ op ∧ op ≤ 0x5FFF)),
      if_neg (by omega : ¬(0x6000 ≤ op ∧ op ≤ 0x6FFF)),
      if_neg (by omega : ¬(0x7000 ≤ op ∧ op ≤ 0x7FFF)),
      if_neg (by omega : ¬(0x8000 ≤ op ∧ op ≤ 0x8FFF)),
      if_neg (by omega : ¬(0x9000 ≤ op ∧ op ≤ 0x9FFF)),
      if_neg (by omega : ¬(0xA000 ≤ op ∧ op ≤ 0xAFFF)),
      if_neg (by omega : ¬(0xB000 ≤ op ∧ op ≤ 0xBFFF)),
      if_neg (by omega : ¬(0xC000 ≤ op ∧ op ≤ 0xCFFF)),
      if_pos (by omega : 0xD000 ≤ op ∧ op ≤ 0xDFFF)]
  have e1 : op % 16 = n := by omega
  have e2 : op / 256 % 16 = rx := by omega
  have e3 : op / 16 % 16 = ry := by omega
  rw [e1, e2, e3]
  simp only [hrb, hdr]

theorem execOp_draw_none (rnd : Nat) (s : CHIP8) (rx ry n : Nat)
    (hrx : rx < 16) (hry : ry < 16) (hn : n < 16)
    (bs : List Nat)
    (hrb : readBytes s.memory s.index_register n = some bs)
    (hdr : drawRows (s.vregister rx) (s.vregister ry) bs 0 s.display = none) :
    execOp rnd s (0xD000 + rx * 256 + ry * 16 + n) = none := by
  set op := 0xD000 + rx * 256 + ry * 16 + n with hop
  unfold execOp
  rw [if_neg (by omega : ¬(op = 0x00E0)), if_neg (by omega : ¬(op = 0x00EE)),
      if_neg (by omega : ¬(0x1000 ≤ op ∧ op ≤ 0x1FFF)),
      if_neg (by omega : ¬(0x2000 ≤ op ∧ op ≤ 0x2FFF)),
      if_neg (by omega : ¬(0x3000 ≤ op ∧ op ≤ 0x3FFF)),
      if_neg (by omega : ¬(0x4000 ≤ op ∧ op ≤ 0x4FFF)),
      if_neg (by omega : ¬(0x5000 ≤ op ∧ op ≤ 0x5FFF)),
      if_neg (by omega : ¬(0x6000 ≤ op ∧ op ≤ 0x6FFF)),
      if_neg (by omega : ¬(0x7000 ≤ op ∧ op ≤ 0x7FFF)),
      if_neg (by omega : ¬(0x8000 ≤ op ∧ op ≤ 0x8FFF)),
      if_neg (by omega : ¬(0x9000 ≤ op ∧ op ≤ 0x9FFF)),
      if_neg (by omega : ¬(0xA000 ≤ op ∧ op ≤ 0xAFFF)),
      if_neg (by omega : ¬(0xB000 ≤ op ∧ op ≤ 0xBFFF)),
      if_neg (by omega : ¬(0xC000 ≤ op ∧ op ≤ 0xCFFF)),
      if_pos (by omega : 0xD000 ≤ op ∧ op ≤ 0xDFFF)]
  have e1 : op % 16 = n := by omega
  have e2 : op / 256 % 16 = rx := by omega
  have e3 : op / 16 % 16 = ry := by omega
  rw [e1, e2, e3]
  simp only [hrb, hdr]

theorem execOp_keywait_some (rnd : Nat) (s : CHIP8) (rx k : Nat) (hrx : rx < 16)
    (hk : findKey s.keypad = some k) :
    execOp rnd s (0xF000 + rx * 256 + 0x0A) =
      some { s with vregister := upd s.vregister rx k,
                    program_counter := (s.program_counter + 2) % 65536 } := by
  set op := 0xF000 + rx * 256 + 0x0A with hop
  unfold execOp
  rw [if_neg (by omega : ¬(op = 0x00E0)), if_neg (by omega : ¬(op = 0x00EE)),
      if_neg (by omega : ¬(0x1000 ≤ op ∧ op ≤ 0x1FFF)),
      if_neg (by omega : ¬(0x2000 ≤ op ∧ op ≤ 0x2FFF)),
      if_neg (by omega : ¬(0x3000 ≤ op ∧ op ≤ 0x3FFF)),
      if_neg (by omega : ¬(0x4000 ≤ op ∧ op ≤ 0x4FFF)),
      if_neg (by omega : ¬(0x5000 ≤ op ∧ op ≤ 0x5FFF)),
      if_neg (by omega : ¬(0x6000 ≤ op ∧ op ≤ 0x6FFF)),
      if_neg (by omega : ¬(0x7000 ≤ op ∧ op ≤ 0x7FFF)),
      if_neg (by omega : ¬(0x8000 ≤ op ∧ op ≤ 0x8FFF)),
      if_neg (by omega : ¬(0x9000 ≤ op ∧ op ≤ 0x9FFF)),
      if_neg (by omega : ¬(0xA000 ≤ op ∧ op ≤ 0xAFFF)),
      if_neg (by omega : ¬(0xB000 ≤ op ∧ op ≤ 0xBFFF)),
      if_neg (by omega : ¬(0xC000 ≤ op ∧ op ≤ 0xCFFF)),
      if_neg (by omega : ¬(0xD000 ≤ op ∧ op ≤ 0xDFFF)),
      if_neg (by omega : ¬(0xE000 ≤ op ∧ op ≤ 0xEFFF)),
      if_pos (by omega : 0xF000 ≤ op ∧ op ≤ 0xFFFF)]
  have e1 : op % 256 = 0x0A := by omega
  have e2 : op / 256 % 16 = rx := by omega
  rw [e1, e2, hk]
  rfl

theorem execOp_keywait_none (rnd : Nat) (s : CHIP8) (rx : Nat) (hrx : rx < 16)
    (hk : findKey s.keypad = none) :
    execOp rnd s (0xF000 + rx * 256 + 0x0A) = none := by
  set op := 0xF000 + rx * 256 + 0x0A with hop
  unfold execOp
  rw [if_neg (by omega : ¬(op = 0x00E0)), if_neg (by omega : ¬(op = 0x00EE)),
      if_neg (by omega : ¬(0x1000 ≤ op ∧ op ≤ 0x1FFF)),
      if_neg (by omega : ¬(0x2000 ≤ op ∧ op ≤ 0x2FFF)),
      if_neg (by omega : ¬(0x3000 ≤ op ∧ op ≤ 0x3FFF)),
      if_neg (by omega : ¬(0x4000 ≤ op ∧ op ≤ 0x4FFF)),
      if_neg (by omega : ¬(0x5000 ≤ op ∧ op ≤ 0x5FFF)),
      if_neg (by omega : ¬(0x6000 ≤ op ∧ op ≤ 0x6FFF)),
      if_neg (by omega : ¬(0x7000 ≤ op ∧ op ≤ 0x7FFF)),
      if_neg (by omega : ¬(0x8000 ≤ op ∧ op ≤ 0x8FFF)),
      if_neg (by omega : ¬(0x9000 ≤ op ∧ op ≤ 0x9FFF)),
      if_neg (by omega : ¬(0xA000 ≤ op ∧ op ≤ 0xAFFF)),
      if_neg (by omega : ¬(0xB000 ≤ op ∧ op ≤ 0xBFFF)),
      if_neg (by omega : ¬(0xC000 ≤ op ∧ op ≤ 0xCFFF)),
      if_neg (by omega : ¬(0xD000 ≤ op ∧ op ≤ 0xDFFF)),
      if_neg (by omega : ¬(0xE000 ≤ op ∧ op ≤ 0xEFFF)),
      if_pos (by omega : 0xF000 ≤ op ∧ op ≤ 0xFFFF)]
  have e1 : op % 256 = 0x0A := by omega
  have e2 : op / 256 % 16 = rx := by omega
  rw [e1, e2, hk]
  rfl

theorem execOp_store (rnd : Nat) (s : CHIP8) (rx : Nat) (hrx : rx < 16)
    (mem1 : Nat → Nat)
    (hst : storeRegsAux s.vregister s.index_register (rx + 1) 0 s.memory = some mem1) :
    execOp rnd s (0xF000 + rx * 256 + 0x55) =
      some { s with memory := mem1,
                    program_counter := (s.program_counter + 2) % 65536 } := by
  set op := 0xF000 + rx * 256 + 0x55 with hop
  unfold execOp
  rw [if_neg (by omega : ¬(op = 0x00E0)), if_neg (by omega : ¬(op = 0x00EE)),
      if_neg (by omega : ¬(0x1000 ≤ op ∧ op ≤ 0x1FFF)),
      if_neg (by omega : ¬(0x2000 ≤ op ∧ op ≤ 0x2FFF)),
      if_neg (by omega : ¬(0x3000 ≤ op ∧ op ≤ 0x3FFF)),
      if_neg (by omega : ¬(0x4000 ≤ op ∧ op ≤ 0x4FFF)),
      if_neg (by omega : ¬(0x5000 ≤ op ∧ op ≤ 0x5FFF)),
      if_neg (by omega : ¬(0x6000 ≤ op ∧ op ≤ 0x6FFF)),
      if_neg (by omega : ¬(0x7000 ≤ op ∧ op ≤ 0x7FFF)),
      if_neg (by omega : ¬(0x8000 ≤ op ∧ op ≤ 0x8FFF)),
      if_neg (by omega : ¬(0x9000 ≤ op ∧ op ≤ 0x9FFF)),
      if_neg (by omega : ¬(0xA000 ≤ op ∧ op ≤ 0xAFFF)),
      if_neg (by omega : ¬(0xB000 ≤ op ∧ op ≤ 0xBFFF)),
      if_neg (by omega : ¬(0xC000 ≤ op ∧ op ≤ 0xCFFF)),
      if_neg (by omega : ¬(0xD000 ≤ op ∧ op ≤ 0xDFFF)),
      if_neg (by omega : ¬(0xE000 ≤ op ∧ op ≤ 0xEFFF)),
      if_pos (by omega : 0xF000 ≤ op ∧ op ≤ 0xFFFF)]
  have e1 : op % 256 = 0x55 := by omega
  have e2 : op / 256 % 16 = rx := by omega
  rw [e1, e2]
  simp only [hst]
  rfl

theorem execOp_load (rnd : Nat) (s : CHIP8) (rx : Nat) (hrx : rx < 16)
    (vreg1 : Nat → Nat)
    (hld : loadRegsAux s.memory s.index_register (rx + 1) 0 s.vregister = some vreg1) :
    execOp rnd s (0xF000 + rx * 256 + 0x65) =
      some { s with vregister := vreg1,
                    program_counter := (s.program_counter + 2) % 65536 } := by
  set op := 0xF000 + rx * 256 + 0x65 with hop
  unfold execOp
  rw [if_neg (by omega : ¬(op = 0x00E0)), if_neg (by omega : ¬(op = 0x00EE)),
      if_neg (by omega : ¬(0x1000 ≤ op ∧ op ≤ 0x1FFF)),
      if_neg (by omega : ¬(0x2000 ≤ op ∧ op ≤ 0x2FFF)),
      if_neg (by omega : ¬(0x3000 ≤ op ∧ op ≤ 0x3FFF)),
      if_neg (by omega : ¬(0x4000 ≤ op ∧ op ≤ 0x4FFF)),
      if_neg (by omega : ¬(0x5000 ≤ op ∧ op ≤ 0x5FFF)),
      if_neg (by omega : ¬(0x6000 ≤ op ∧ op ≤ 0x6FFF)),
      if_neg (by omega : ¬(0x7000 ≤ op ∧ op ≤ 0x7FFF)),
      if_neg (by omega : ¬(0x8000 ≤ op ∧ op ≤ 0x8FFF)),
      if_neg (by omega : ¬(0x9000 ≤ op ∧ op ≤ 0x9FFF)),
      if_neg (by omega : ¬(0xA000 ≤ op ∧ op ≤ 0xAFFF)),
      if_neg (by omega : ¬(0xB000 ≤ op ∧ op ≤ 0xBFFF)),
      if_neg (by omega : ¬(0xC000 ≤ op ∧ op ≤ 0xCFFF)),
      if_neg (by omega : ¬(0xD000 ≤ op ∧ op ≤ 0xDFFF)),
      if_neg (by omega : ¬(0xE000 ≤ op ∧ op ≤ 0xEFFF)),
      if_pos (by omega : 0xF000 ≤ op ∧ op ≤ 0xFFFF)]
  have e1 : op % 256 = 0x65 := by omega
  have e2 : op / 256 % 16 = rx := by omega
  rw [e1, e2]
  simp only [hld]
  rfl

/-!
Characterisations of the iteration helpers.
-/

theorem findKeyAux_none (kp : Nat → Bool) (r : Nat) :
    ∀ i : Nat, (∀ j, i ≤ j → j < i + r → kp j = false) → findKeyAux kp r i = none := by
  induction r with
  | zero => intro i h; rfl
  | succ r ih =>
    intro i h
    unfold findKeyAux
    rw [h i (Nat.le_refl i) (by omega)]
    exact ih (i + 1) (fun j h1 h2 => h j (by omega) (by omega))

theorem findKey_none (kp : Nat → Bool) (h : ∀ j, j < 16 → kp j = false) :
    findKey kp = none :=
  findKeyAux_none kp 16 0 (fun j _ h2 => h j (by omega))

theorem findKeyAux_some (kp : Nat → Bool) (r : Nat) :
    ∀ i k : Nat, i ≤ k → k < i + r → kp k = true →
      (∀ j, i ≤ j → j < k → kp j = false) → findKeyAux kp r i = some k := by
  induction r with
  | zero => intro i k h1 h2 h3 h4; omega
  | succ r ih =>
    intro i k h1 h2 h3 h4
    unfold findKeyAux
    by_cases hik : i = k
    · subst hik
      rw [h3]
      rfl
    · rw [h4 i (Nat.le_refl i) (by omega)]
      exact ih (i + 1) k (by omega) (by omega) h3 (fun j ha hb => h4 j (by omega) hb)

theorem findKey_some (kp : Nat → Bool) (k : Nat) (h1 : k < 16) (h2 : kp k = true)
    (h3 : ∀ j, j < k → kp j = false) : findKey kp = some k :=
  findKeyAux_some kp 16 0 k (Nat.zero_le k) (by omega) h2 (fun j _ hb => h3 j hb)

theorem storeRegsAux_some (vreg : Nat → Nat) (I : Nat) (r : Nat) :
    ∀ (i : Nat) (mem : Nat → Nat), (∀ j, j < r → I + i + j < 4096) →
      storeRegsAux vreg I r i mem =
        some (fun p => if I + i ≤ p ∧ p < I + i + r then vreg (p - I) else mem p) := by
  induction r with
  | zero =>
    intro i mem _
    unfold storeRegsAux
    congr 1
    funext p
    rw [if_neg (by omega)]
  | succ r ih =>
    intro i mem h
    unfold storeRegsAux
    rw [if_pos (by have := h 0 (by omega); omega)]
    rw [ih (i + 1) (upd mem (I + i) (vreg i)) (fun j hj => by have := h (j + 1) (by omega); omega)]
    congr 1
    funext p
    simp only [upd]
    split_ifs <;> first | rfl | (exfalso; omega) | (congr 1; omega)

theorem loadRegsAux_some (mem : Nat → Nat) (I : Nat) (r : Nat) :
    ∀ (i : Nat) (vreg : Nat → Nat), (∀ j, j < r → I + i + j < 4096) →
      loadRegsAux mem I r i vreg =
        some (fun q => if i ≤ q ∧ q < i + r then mem (I + q) else vreg q) := by
  induction r with
  | zero =>
    intro i vreg _
    unfold loadRegsAux
    congr 1
    funext q
    rw [if_neg (by omega)]
  | succ r ih =>
    intro i vreg h
    unfold loadRegsAux
    rw [if_pos (by have := h 0 (by omega); omega)]
    rw [ih (i + 1) (upd vreg i (mem (I + i))) (fun j hj => by have := h (j + 1) (by omega); omega)]
    congr 1
    funext q
    simp only [upd]
    split_ifs <;> first | rfl | (exfalso; omega) | (congr 1; omega)

theorem spriteBytes_length (mem : Nat → Nat) (I n : Nat) :
    (spriteBytes mem I n).length = n := by
  simp [spriteBytes]

theorem spriteBytes_getD (mem : Nat → Nat) (I n k : Nat) (h : k < n) :
    (spriteBytes mem I n).getD k 0 = mem (I + k) := by
  simp [spriteBytes, List.getD_eq_getElem?_getD, List.getElem?_map, List.getElem?_range, h]

theorem readBytes_eq (mem : Nat → Nat) (I : Nat) (n : Nat) (h : I + n ≤ 4096) :
    readBytes mem I n = some (spriteBytes mem I n) := by
  induction n with
  | zero => rfl
  | succ n ih =>
    unfold readBytes
    rw [ih (by omega)]
    show (if (I + n) % 65536 < 4096 then some (spriteBytes mem I n ++ [mem ((I + n) % 65536)])
          else none) = some (spriteBytes mem I (n + 1))
    have e : (I + n) % 65536 = I + n := by omega
    rw [e, if_pos (by omega : I + n < 4096)]
    unfold spriteBytes
    rw [List.range_succ, List.map_append]
    rfl

theorem toggleList_append (l1 l2 : List Nat) : ∀ disp : Nat → Nat,
    toggleList disp (l1 ++ l2) = toggleList (toggleList disp l1) l2 := by
  induction l1 with
  | nil => intro disp; rfl
  | cons q rest ih =>
    intro disp
    simp only [List.cons_append, toggleList]
    exact ih _

theorem toggleList_apply (l : List Nat) : ∀ (disp : Nat → Nat) (p : Nat),
    toggleList disp l p = if l.count p % 2 = 0 then disp p else disp p ^^^ 1 := by
  induction l with
  | nil => intro disp p; simp [toggleList]
  | cons q rest ih =>
    intro disp p
    show toggleList (upd disp q (disp q ^^^ 1)) rest p = _
    rw [ih]
    by_cases hq : q = p
    · subst hq
      rw [List.count_cons_self]
      rw [upd_same disp q (disp q ^^^ 1)]
      by_cases he : rest.count q % 2 = 0
      · have h1 : (List.count q rest + 1) % 2 ≠ 0 := by omega
        rw [if_pos he, if_neg h1]
      · have h1 : (List.count q rest + 1) % 2 = 0 := by omega
        rw [if_neg he, if_pos h1, Nat.xor_assoc, Nat.xor_self, Nat.xor_zero]
    · rw [List.count_cons_of_ne (fun hpq => hq hpq.symm)]
      rw [upd_other disp q (disp q ^^^ 1) p (fun hpq => hq hpq.symm)]

theorem drawColsAux_eq (byte x yrow : Nat) (r : Nat) :
    ∀ (col : Nat) (disp : Nat → Nat),
      (∀ q ∈ colHits byte x yrow r col, q < 2048) →
      drawColsAux byte x yrow r col disp =
        some (toggleList disp (colHits byte x yrow r col)) := by
  induction r with
  | zero => intro col disp _; rfl
  | succ r ih =>
    intro col disp h
    unfold drawColsAux colHits
    by_cases hb : byte / 2 ^ (7 - col) % 2 = 1
    · rw [if_pos hb, if_pos hb]
      have hidx : (x + col) + yrow * 64 < 2048 :=
        h _ (by
          unfold colHits
          rw [if_pos hb]
          exact List.mem_append_left _ (List.mem_singleton_self _))
      rw [if_pos hidx]
      rw [ih (col + 1) _ (fun q hq => h q (by
        unfold colHits
        rw [if_pos hb]
        exact List.mem_append_right _ hq))]
      rfl
    · rw [if_neg hb, if_neg hb]
      rw [ih (col + 1) disp (fun q hq => h q (by
        unfold colHits
        rw [if_neg hb]
        simpa using hq))]
      rfl

theorem drawColsAux_none (byte x yrow : Nat) (r : Nat) :
    ∀ (col : Nat) (disp : Nat → Nat) (q : Nat),
      q ∈ colHits byte x yrow r col → 2048 ≤ q →
      drawColsAux byte x yrow r col disp = none := by
  induction r with
  | zero => intro col disp q hq _; simp [colHits] at hq
  | succ r ih =>
    intro col disp q hq hge
    unfold drawColsAux
    unfold colHits at hq
    by_cases hb : byte / 2 ^ (7 - col) % 2 = 1
    · rw [if_pos hb]
      rw [if_pos hb] at hq
      by_cases hidx : (x + col) + yrow * 64 < 2048
      · rw [if_pos hidx]
        apply ih (col + 1) _ q _ hge
        rcases List.mem_append.mp hq with h1 | h1
        · exfalso
          have := List.mem_singleton.mp h1
          omega
        · exact h1
      · rw [if_neg hidx]
    · rw [if_neg hb]
      rw [if_neg hb] at hq
      exact ih (col + 1) disp q (by simpa using hq) hge

theorem drawRows_eq (x y : Nat) (bs : List Nat) : ∀ (row : Nat) (disp : Nat → Nat),
    (∀ q ∈ rowHits x y bs row, q < 2048) →
    drawRows x y bs row disp = some (toggleList disp (rowHits x y bs row)) := by
  induction bs with
  | nil => intro row disp _; rfl
  | cons b rest ih =>
    intro row disp h
    unfold drawRows rowHits
    rw [drawColsAux_eq b x (y + row) 8 0 disp (fun q hq => h q (by
      unfold rowHits
      exact List.mem_append_left _ hq))]
    show drawRows x y rest (row + 1) (toggleList disp (colHits b x (y + row) 8 0)) = _
    rw [ih (row + 1) _ (fun q hq => h q (by
      unfold rowHits
      exact List.mem_append_right _ hq))]
    rw [toggleList_append]

theorem drawRows_none (x y : Nat) (bs : List Nat) :
    ∀ (row : Nat) (disp : Nat → Nat) (q : Nat),
      q ∈ rowHits x y bs row → 2048 ≤ q → drawRows x y bs row disp = none := by
  induction bs with
  | nil => intro row disp q hq _; simp [rowHits] at hq
  | cons b rest ih =>
    intro row disp q hq hge
    unfold drawRows
    unfold rowHits at hq
    rcases List.mem_append.mp hq with h1 | h1
    · rw [drawColsAux_none b x (y + row) 8 0 disp q h1 hge]
    · by_cases hall : ∀ p ∈ colHits b x (y + row) 8 0, p < 2048
      · rw [drawColsAux_eq b x (y + row) 8 0 disp hall]
        show drawRows x y rest (row + 1) (toggleList disp (colHits b x (y + row) 8 0)) = none
        exact ih (row + 1) _ q h1 hge
      · push_neg at hall
        rcases hall with ⟨p, hp, hpge⟩
        rw [drawColsAux_none b x (y + row) 8 0 disp p hp (by omega)]

theorem colHits_mem (byte x yrow : Nat) (r : Nat) :
    ∀ (col c : Nat), col ≤ c → c < col + r → byte / 2 ^ (7 - c) % 2 = 1 →
      (x + c) + yrow * 64 ∈ colHits byte x yrow r col := by
  induction r with
  | zero => intro col c h1 h2 _; exact absurd h2 (by omega)
  | succ r ih =>
    intro col c h1 h2 h3
    unfold colHits
    by_cases hc : c = col
    · subst hc
      rw [if_pos h3]
      exact List.mem_append_left _ (List.mem_singleton_self _)
    · exact List.mem_append_right _ (ih (col + 1) c (by omega) (by omega) h3)

theorem rowHits_mem (x y : Nat) (bs : List Nat) :
    ∀ (row k q : Nat), k < bs.length →
      q ∈ colHits (bs.getD k 0) x (y + (row + k)) 8 0 → q ∈ rowHits x y bs row := by
  induction bs with
  | nil => intro row k q hk _; simp at hk
  | cons b rest ih =>
    intro row k q hk hq
    unfold rowHits
    cases k with
    | zero =>
      apply List.mem_append_left
      simpa using hq
    | succ k =>
      apply List.mem_append_right
      have e : row + 1 + k = row + (k + 1) := by omega
      exact ih (row + 1) k q (by simpa using hk) (by rw [e]; simpa using hq)

theorem load_romAux_some (data : List Nat) :
    ∀ (i : Nat) (mem : Nat → Nat), 0x200 + i + data.length ≤ 4096 →
      load_romAux data i mem =
        some (fun p => if 0x200 + i ≤ p ∧ p < 0x200 + i + data.length then
                         data.getD (p - (0x200 + i)) 0
                       else mem p) := by
  induction data with
  | nil =>
    intro i mem _
    unfold load_romAux
    congr 1
    funext p
    rw [if_neg (by simp only [List.length_nil]; omega)]
  | cons b rest ih =>
    intro i mem h
    unfold load_romAux
    rw [if_pos (by simp at h; omega)]
    rw [ih (i + 1) (upd mem (0x200 + i) b) (by simp at h ⊢; omega)]
    congr 1
    funext p
    simp only [upd, List.length_cons]
    split_ifs with h1 h2 h3 h4 <;> try rfl
    · have e : p - (0x200 + i) = (p - (0x200 + (i + 1))) + 1 := by omega
      rw [e, List.getD_cons_succ]
    · exfalso; omega
    · have e : p - (0x200 + i) = 0 := by omega
      rw [e, List.getD_cons_zero]
    · exfalso; omega
    · exfalso; omega

theorem load_romAux_none (data : List Nat) :
    ∀ (i : Nat) (mem : Nat → Nat), 0x200 + i ≤ 4096 → 4096 < 0x200 + i + data.length →
      load_romAux data i mem = none := by
  induction data with
  | nil => intro i mem h1 h2; simp at h2; omega
  | cons b rest ih =>
    intro i mem h1 h2
    unfold load_romAux
    by_cases hi : 0x200 + i < 4096
    · rw [if_pos hi]
      exact ih (i + 1) _ (by omega) (by simp at h2 ⊢; omega)
    · rw [if_neg hi]

/-!
Claim theorems.
-/

/-- Claim C7: on every engine cycle that terminates, each of the two timers
whose value after the instruction's effect (`execInstr`) is positive is
decremented by exactly one, and a timer equal to zero is left at zero (it
never wraps below zero), regardless of which instruction was executed. -/
theorem c7_timers (rnd : Nat) (s s1 : CHIP8) (h : execInstr rnd s = some s1) :
    (0 < s1.delay_timer →
      (cycle rnd s).map (fun t => t.delay_timer) = some (s1.delay_timer - 1)) ∧
    (s1.delay_timer = 0 → (cycle rnd s).map (fun t => t.delay_timer) = some 0) ∧
    (0 < s1.sound_timer →
      (cycle rnd s).map (fun t => t.sound_timer) = some (s1.sound_timer - 1)) ∧
    (s1.sound_timer = 0 → (cycle rnd s).map (fun t => t.sound_timer) = some 0) := by
  have hc : cycle rnd s = some (tickTimers s1) := cycle_of_execInstr rnd s s1 h
  refine ⟨fun hd => ?_, fun hd => ?_, fun hd => ?_, fun hd => ?_⟩ <;>
    rw [hc] <;> simp only [Option.map_some']
  · rw [tickTimers_delay, if_pos hd]
  · rw [tickTimers_delay, if_neg (by omega), hd]
  · rw [tickTimers_sound, if_pos hd]
  · rw [tickTimers_sound, if_neg (by omega), hd]

/-- Witness for C7 at a concrete state: unknown opcode 0x0000 with delay
timer 5, sound timer 0: the cycle yields delay 4 and sound 0. -/
theorem c7_witness :
    (cycle 0 stTimer).map (fun t => t.delay_timer) = some 4 ∧
    (cycle 0 stTimer).map (fun t => t.sound_timer) = some 0 :=
  ⟨(c7_timers 0 stTimer stTimer rfl).1 (by decide),
   (c7_timers 0 stTimer stTimer rfl).2.2.2 rfl⟩

/-- Claim C1 counterexample: at the fresh state (program counter 0x200, all
memory zero) the fetched opcode 0x0000 matches no documented class; the cycle
completes (non-fatal) but the program counter stays at 0x200 instead of
advancing to 0x202 as the claim asserts. -/
theorem c1_counterexample :
    cycle 0 new = some new ∧ new.program_counter = 0x200 ∧
      (cycle 0 new).map (fun t => t.program_counter) ≠ some (0x200 + 2) :=
  ⟨rfl, rfl, by decide⟩

/-- Claim C1 (amended): a fetched opcode matching none of the documented
classes (below 0x1000 and distinct from 00E0/00EE) is never fatal and is
only logged: the cycle leaves the whole state unchanged — including the
program counter, which does NOT advance — apart from the per-cycle timer
decrement. -/
theorem c1_unknown_amended (rnd : Nat) (s : CHIP8)
    (hpc : s.program_counter + 1 < 4096)
    (h1 : s.memory s.program_counter * 256 + s.memory (s.program_counter + 1) < 0x1000)
    (h2 : s.memory s.program_counter * 256 + s.memory (s.program_counter + 1) ≠ 0x00E0)
    (h3 : s.memory s.program_counter * 256 + s.memory (s.program_counter + 1) ≠ 0x00EE) :
    cycle rnd s = some (tickTimers s) ∧
    (tickTimers s).program_counter = s.program_counter ∧
    (tickTimers s).memory = s.memory ∧
    (tickTimers s).vregister = s.vregister ∧
    (tickTimers s).display = s.display ∧
    (tickTimers s).index_register = s.index_register ∧
    (tickTimers s).stack = s.stack ∧
    (tickTimers s).stack_pointer = s.stack_pointer := by
  have hfetch := execInstr_eq rnd s hpc
  rw [execOp_unknown rnd s _ h1 h2 h3] at hfetch
  exact ⟨cycle_of_execInstr rnd s s hfetch, tickTimers_program_counter s,
    tickTimers_memory s, tickTimers_vregister s, tickTimers_display s,
    tickTimers_index_register s, tickTimers_stack s, tickTimers_stack_pointer s⟩

/-- Witness for the amended C1 at the fresh state. -/
theorem c1_witness :
    cycle 7 new = some (tickTimers new) ∧
    (tickTimers new).program_counter = new.program_counter ∧
    (tickTimers new).memory = new.memory ∧
    (tickTimers new).vregister = new.vregister ∧
    (tickTimers new).display = new.display ∧
    (tickTimers new).index_register = new.index_register ∧
    (tickTimers new).stack = new.stack ∧
    (tickTimers new).stack_pointer = new.stack_pointer :=
  c1_unknown_amended 7 new (by decide) (by decide) (by decide) (by decide)

/-- Claim C2: blocking key wait FX0A.  If some keypad flag is true when the
instruction is evaluated, the cycle terminates, stores the index of the
first true flag (in key order 0..15) into Vx, and advances the program
counter by 2; if the keypad is all false, the instruction never completes
(the busy loop diverges, so the cycle as a whole does not terminate — the
counter is not advanced and the register is never set), and a cycle entered
with any key true completes at once. -/
theorem c2_keywait (rnd : Nat) (s : CHIP8) (rx k : Nat)
    (hpc : s.program_counter + 1 < 4096)
    (hmsb : s.memory s.program_counter = 0xF0 + rx) (hrx : rx < 16)
    (hlsb : s.memory (s.program_counter + 1) = 0x0A) :
    (k < 16 → s.keypad k = true → (∀ j, j < k → s.keypad j = false) →
      (cycle rnd s).map (fun t => (t.program_counter, t.vregister rx)) =
        some ((s.program_counter + 2) % 65536, k)) ∧
    ((∀ i, i < 16 → s.keypad i = false) → cycle rnd s = none) := by
  have hfetch := execInstr_eq rnd s hpc
  rw [hmsb, hlsb] at hfetch
  have hopeq : (0xF0 + rx) * 256 + 0x0A = 0xF000 + rx * 256 + 0x0A := by omega
  rw [hopeq] at hfetch
  constructor
  · intro hk1 hk2 hk3
    rw [execOp_keywait_some rnd s rx k hrx (findKey_some s.keypad k hk1 hk2 hk3)] at hfetch
    rw [cycle_of_execInstr rnd s _ hfetch]
    simp only [Option.map_some']
    rw [tickTimers_program_counter, tickTimers_vregister]
    show some ((s.program_counter + 2) % 65536, upd s.vregister rx k rx) = _
    rw [upd_same]
  · intro hall
    rw [execOp_keywait_none rnd s rx hrx (findKey_none s.keypad (fun j hj => hall j hj))]
      at hfetch
    exact cycle_of_execInstr_none rnd s hfetch

/-- Witness for C2: with only key 3 held, F50A at 0x200 completes with
V5 = 3 and the counter at 0x202; with no key held, the cycle does not
terminate. -/
theorem c2_witness :
    (cycle 0 stKeyHeld).map (fun t => (t.program_counter, t.vregister 5)) =
      some (0x202, 3) ∧
    cycle 0 stKeyNone = none :=
  ⟨(c2_keywait 0 stKeyHeld 5 3 (by decide) (by decide) (by decide) (by decide)).1
      (by decide) (by decide) (by decide),
   (c2_keywait 0 stKeyNone 5 0 (by decide) (by decide) (by decide) (by decide)).2
      (by decide)⟩

/-- Claim C4 counterexample: SUB with destination VF (opcode 8F05, VF = 5,
V0 = 3).  The claim predicts VF = 1 (no borrow: 5 > 3) and destination
5 - 3 = 2; the code leaves VF = 254, because the flag write happens first
and the subtraction then reads the freshly written flag. -/
theorem c4_counterexample :
    (cycle 0 stSubVF).map (fun t => t.vregister 15) = some 254 ∧
      (254 : Nat) ≠ 1 ∧ (254 : Nat) ≠ 2 :=
  ⟨by decide, by decide, by decide⟩

/-- Claim C4 (amended): for both subtract variants (8XY5: Vx ← Vx - Vy and
8XY7: Vx ← Vy - Vx) with operand registers X and Y distinct from F, VF is
set to 1 exactly when the minuend is strictly greater than the subtrahend
(measured before the subtraction), else 0, and the destination receives the
difference of the pre-instruction operand values wrapped modulo 256. -/
theorem c4_sub_amended (rnd : Nat) (s : CHIP8) (rx ry : Nat)
    (hpc : s.program_counter + 1 < 4096)
    (hmsb : s.memory s.program_counter = 0x80 + rx)
    (hrx : rx < 16) (hry : ry < 16) (hrxF : rx ≠ 15) (hryF : ry ≠ 15)
    (hvx : s.vregister rx < 256) (hvy : s.vregister ry < 256) :
    (s.memory (s.program_counter + 1) = ry * 16 + 5 →
      (cycle rnd s).map (fun t => (t.vregister rx, t.vregister 15)) =
        some ((s.vregister rx + 256 - s.vregister ry) % 256,
              if s.vregister ry < s.vregister rx then 1 else 0)) ∧
    (s.memory (s.program_counter + 1) = ry * 16 + 7 →
      (cycle rnd s).map (fun t => (t.vregister rx, t.vregister 15)) =
        some ((s.vregister ry + 256 - s.vregister rx) % 256,
              if s.vregister rx < s.vregister ry then 1 else 0)) := by
  have h15x : (15 : Nat) ≠ rx := fun h => hrxF h.symm
  constructor
  · intro hlsb
    have hfetch := execInstr_eq rnd s hpc
    rw [hmsb, hlsb] at hfetch
    have hopeq : (0x80 + rx) * 256 + (ry * 16 + 5) = 0x8000 + rx * 256 + ry * 16 + 5 := by
      omega
    rw [hopeq, execOp_sub rnd s rx ry hrx hry] at hfetch
    rw [cycle_of_execInstr rnd s _ hfetch]
    simp only [Option.map_some']
    rw [tickTimers_vregister]
    dsimp only
    rw [upd_same, upd_other s.vregister 15 _ rx hrxF, upd_other s.vregister 15 _ ry hryF,
        upd_other _ rx _ 15 h15x, upd_same]
  · intro hlsb
    have hfetch := execInstr_eq rnd s hpc
    rw [hmsb, hlsb] at hfetch
    have hopeq : (0x80 + rx) * 256 + (ry * 16 + 7) = 0x8000 + rx * 256 + ry * 16 + 7 := by
      omega
    rw [hopeq, execOp_subn rnd s rx ry hrx hry] at hfetch
    rw [cycle_of_execInstr rnd s _ hfetch]
    simp only [Option.map_some']
    rw [tickTimers_vregister]
    dsimp only
    rw [upd_same, upd_other s.vregister 15 _ ry hryF, upd_other s.vregister 15 _ rx hrxF,
        upd_other _ rx _ 15 h15x, upd_same]

/-- Witness for the amended C4: 8125 with V1 = 5, V2 = 3 gives V1 = 2 and
VF = 1; 8127 with V1 = 5, V2 = 3 gives V1 = 254 and VF = 0. -/
theorem c4_witness :
    (cycle 0 stSub).map (fun t => (t.vregister 1, t.vregister 15)) = some (2, 1) ∧
    (cycle 0 stSubn).map (fun t => (t.vregister 1, t.vregister 15)) = some (254, 0) :=
  ⟨(c4_sub_amended 0 stSub 1 2 (by decide) (by decide) (by decide) (by decide)
      (by decide) (by decide) (by decide) (by decide)).1 (by decide),
   (c4_sub_amended 0 stSubn 1 2 (by decide) (by decide) (by decide) (by decide)
      (by decide) (by decide) (by decide) (by decide)).2 (by decide)⟩

/-- Claim C5 counterexample: add-immediate with destination VF (opcode 7F01,
VF = 0).  The claim says 7XNN never touches VF, but here the instruction
stores VF + 1 into VF, leaving it 1. -/
theorem c5_counterexample :
    (cycle 0 stAddVF).map (fun t => t.vregister 15) = some 1 ∧
      stAddVF.vregister 15 = 0 ∧ (1 : Nat) ≠ 0 :=
  ⟨by decide, rfl, by decide⟩

/-- Claim C5 (amended): for a destination register X distinct from F, the
add-immediate 7XNN stores Vx + NN modulo 256 and leaves VF untouched, and
the register-register ADD 8XY4 stores Vx + Vy modulo 256 and sets VF to 1
exactly when the true sum exceeds 255, else 0 (pre-instruction values). -/
theorem c5_add_amended (rnd : Nat) (s : CHIP8) (rx kk ry : Nat)
    (hpc : s.program_counter + 1 < 4096)
    (hrx : rx < 16) (hrxF : rx ≠ 15) (hvx : s.vregister rx < 256) :
    (s.memory s.program_counter = 0x70 + rx →
      s.memory (s.program_counter + 1) = kk → kk < 256 →
      (cycle rnd s).map (fun t => (t.vregister rx, t.vregister 15)) =
        some ((s.vregister rx + kk) % 256, s.vregister 15)) ∧
    (s.memory s.program_counter = 0x80 + rx →
      s.memory (s.program_counter + 1) = ry * 16 + 4 → ry < 16 →
      s.vregister ry < 256 →
      (cycle rnd s).map (fun t => (t.vregister rx, t.vregister 15)) =
        some ((s.vregister rx + s.vregister ry) % 256,
              if 256 ≤ s.vregister rx + s.vregister ry then 1 else 0)) := by
  have h15x : (15 : Nat) ≠ rx := fun h => hrxF h.symm
  constructor
  · intro hmsb hlsb hkk
    have hfetch := execInstr_eq rnd s hpc
    rw [hmsb, hlsb] at hfetch
    have hopeq : (0x70 + rx) * 256 + kk = 0x7000 + rx * 256 + kk := by omega
    rw [hopeq, execOp_addImm rnd s rx kk hrx hkk] at hfetch
    rw [cycle_of_execInstr rnd s _ hfetch]
    simp only [Option.map_some']
    rw [tickTimers_vregister]
    dsimp only
    rw [upd_same, upd_other _ rx _ 15 h15x]
  · intro hmsb hlsb hry hvy
    have hfetch := execInstr_eq rnd s hpc
    rw [hmsb, hlsb] at hfetch
    have hopeq : (0x80 + rx) * 256 + (ry * 16 + 4) = 0x8000 + rx * 256 + ry * 16 + 4 := by
      omega
    rw [hopeq, execOp_add rnd s rx ry hrx hry] at hfetch
    rw [cycle_of_execInstr rnd s _ hfetch]
    simp only [Option.map_some']
    rw [tickTimers_vregister]
    dsimp only
    rw [upd_other _ 15 _ rx hrxF, upd_same, upd_same]

/-- Witness for the amended C5: 7A05 with V10 = 200 gives V10 = 205, VF
untouched at 0; 8124 with V1 = 255, V2 = 1 gives V1 = 0, VF = 1. -/
theorem c5_witness :
    (cycle 0 stAddImm).map (fun t => (t.vregister 10, t.vregister 15)) = some (205, 0) ∧
    (cycle 0 stAddReg).map (fun t => (t.vregister 1, t.vregister 15)) = some (0, 1) :=
  ⟨(c5_add_amended 0 stAddImm 10 5 0 (by decide) (by decide) (by decide) (by decide)).1
      (by decide) (by decide) (by decide),
   (c5_add_amended 0 stAddReg 1 0 2 (by decide) (by decide) (by decide) (by decide)).2
      (by decide) (by decide) (by decide) (by decide)⟩

/-- Claim C6: CALL (2NNN) at address P with a non-full stack pushes P onto
the stack and jumps to NNN; a RETURN (00EE) executed there (stack untouched
in between) pops that value and resumes at the popped value + 2, so the
call-then-return round trip leaves the program counter at P + 2. -/
theorem c6_call_ret (rnd1 rnd2 : Nat) (s : CHIP8) (a b : Nat)
    (hpc : s.program_counter + 1 < 4096)
    (hmsb : s.memory s.program_counter = 0x20 + a) (ha : a < 16)
    (hlsb : s.memory (s.program_counter + 1) = b) (hb : b < 256)
    (hsp : s.stack_pointer < 16)
    (hr1 : s.memory (a * 256 + b) = 0x00)
    (hr2 : s.memory (a * 256 + b + 1) = 0xEE)
    (hrpc : a * 256 + b + 1 < 4096) :
    (cycle rnd1 s).map
        (fun t => (t.program_counter, t.stack s.stack_pointer, t.stack_pointer)) =
      some (a * 256 + b, s.program_counter, s.stack_pointer + 1) ∧
    ((cycle rnd1 s).bind (cycle rnd2)).map (fun t => t.program_counter) =
      some (s.program_counter + 2) := by
  have hfetch := execInstr_eq rnd1 s hpc
  rw [hmsb, hlsb] at hfetch
  have hopeq : (0x20 + a) * 256 + b = 0x2000 + (a * 256 + b) := by omega
  rw [hopeq, execOp_call rnd1 s (a * 256 + b) (by omega), if_pos hsp] at hfetch
  have hcy1 := cycle_of_execInstr rnd1 s _ hfetch
  have hmodsp : (s.stack_pointer + 1) % 256 = s.stack_pointer + 1 := by omega
  constructor
  · rw [hcy1]
    simp only [Option.map_some']
    rw [tickTimers_program_counter, tickTimers_stack, tickTimers_stack_pointer]
    show some (a * 256 + b, upd s.stack s.stack_pointer s.program_counter s.stack_pointer,
               (s.stack_pointer + 1) % 256) = _
    rw [upd_same, hmodsp]
  · rw [hcy1]
    set s1 : CHIP8 :=
      { s with stack := upd s.stack s.stack_pointer s.program_counter,
               stack_pointer := (s.stack_pointer + 1) % 256,
               program_counter := a * 256 + b } with hs1
    show (cycle rnd2 (tickTimers s1)).map (fun t => t.program_counter) =
      some (s.program_counter + 2)
    have hpct1 : (tickTimers s1).program_counter = a * 256 + b := by
      rw [tickTimers_program_counter]
    have hfetch2 := execInstr_eq rnd2 (tickTimers s1) (by rw [hpct1]; omega)
    rw [hpct1] at hfetch2
    have hm1 : (tickTimers s1).memory (a * 256 + b) = 0x00 := by
      rw [tickTimers_memory]; exact hr1
    have hm2 : (tickTimers s1).memory (a * 256 + b + 1) = 0xEE := by
      rw [tickTimers_memory]; exact hr2
    rw [hm1, hm2, (by omega : (0 : Nat) * 256 + 0xEE = 0x00EE),
        execOp_ret rnd2 (tickTimers s1)] at hfetch2
    have hsp1 : (tickTimers s1).stack_pointer = s.stack_pointer + 1 := by
      rw [tickTimers_stack_pointer]
      show (s.stack_pointer + 1) % 256 = s.stack_pointer + 1
      omega
    rw [hsp1, if_pos (by omega : 1 ≤ s.stack_pointer + 1 ∧ s.stack_pointer + 1 - 1 < 16),
        (by omega : s.stack_pointer + 1 - 1 = s.stack_pointer)] at hfetch2
    have hst : (tickTimers s1).stack s.stack_pointer = s.program_counter := by
      rw [tickTimers_stack]
      exact upd_same s.stack s.stack_pointer s.program_counter
    rw [hst] at hfetch2
    rw [cycle_of_execInstr rnd2 (tickTimers s1) _ hfetch2]
    simp only [Option.map_some']
    rw [tickTimers_program_counter]
    show some ((s.program_counter + 2) % 65536) = some (s.program_counter + 2)
    rw [(by omega : (s.program_counter + 2) % 65536 = s.program_counter + 2)]

/-- Witness for C6: CALL 0x300 at 0x200 (stack empty), 00EE at 0x300: the
call yields counter 0x300, pushed value 0x200, stack pointer 1; the round
trip ends at 0x202. -/
theorem c6_witness :
    (cycle 0 stCall).map
        (fun t => (t.program_counter, t.stack stCall.stack_pointer, t.stack_pointer)) =
      some (0x300, 0x200, 1) ∧
    ((cycle 0 stCall).bind (cycle 0)).map (fun t => t.program_counter) = some 0x202 :=
  ⟨(c6_call_ret 0 0 stCall 3 0 (by decide) (by decide) (by decide) (by decide)
      (by decide) (by decide) (by decide) (by decide) (by decide)).1,
   (c6_call_ret 0 0 stCall 3 0 (by decide) (by decide) (by decide) (by decide)
      (by decide) (by decide) (by decide) (by decide) (by decide)).2⟩

/-- Claim C8: with I + x within memory bounds, the register block store FX55
copies V0..Vx into memory[I..I+x] and changes nothing else (no register, no
other memory cell, not the index register); the block load FX65 copies
memory[I..I+x] into V0..Vx and changes nothing else (registers above Vx, all
memory, and the index register are untouched). -/
theorem c8_blockops (rnd : Nat) (s : CHIP8) (rx i j p : Nat)
    (hpc : s.program_counter + 1 < 4096)
    (hmsb : s.memory s.program_counter = 0xF0 + rx) (hrx : rx < 16)
    (hIx : s.index_register + rx < 4096) :
    (s.memory (s.program_counter + 1) = 0x55 →
      (i ≤ rx → (cycle rnd s).map (fun t => t.memory (s.index_register + i)) =
        some (s.vregister i)) ∧
      ((p < s.index_register ∨ s.index_register + rx < p) →
        (cycle rnd s).map (fun t => t.memory p) = some (s.memory p)) ∧
      ((cycle rnd s).map (fun t => t.vregister j) = some (s.vregister j)) ∧
      (cycle rnd s).map (fun t => t.index_register) = some s.index_register) ∧
    (s.memory (s.program_counter + 1) = 0x65 →
      (i ≤ rx → (cycle rnd s).map (fun t => t.vregister i) =
        some (s.memory (s.index_register + i))) ∧
      (rx < j → (cycle rnd s).map (fun t => t.vregister j) = some (s.vregister j)) ∧
      ((cycle rnd s).map (fun t => t.memory p) = some (s.memory p)) ∧
      (cycle rnd s).map (fun t => t.index_register) = some s.index_register) := by
  constructor
  · intro hlsb
    have hfetch := execInstr_eq rnd s hpc
    rw [hmsb, hlsb] at hfetch
    have hopeq : (0xF0 + rx) * 256 + 0x55 = 0xF000 + rx * 256 + 0x55 := by omega
    have hst := storeRegsAux_some s.vregister s.index_register (rx + 1) 0 s.memory
      (fun jj hjj => by omega)
    rw [hopeq, execOp_store rnd s rx hrx _ hst] at hfetch
    have hcy := cycle_of_execInstr rnd s _ hfetch
    refine ⟨fun hi => ?_, fun hp => ?_, ?_, ?_⟩
    · rw [hcy]
      simp only [Option.map_some']
      rw [tickTimers_memory]
      dsimp only
      rw [if_pos (by omega :
            s.index_register + 0 ≤ s.index_register + i ∧
              s.index_register + i < s.index_register + 0 + (rx + 1))]
      rw [(by omega : s.index_register + i - s.index_register = i)]
    · rw [hcy]
      simp only [Option.map_some']
      rw [tickTimers_memory]
      dsimp only
      rw [if_neg (by omega)]
    · rw [hcy]
      simp only [Option.map_some']
      rw [tickTimers_vregister]
    · rw [hcy]
      simp only [Option.map_some']
      rw [tickTimers_index_register]
  · intro hlsb
    have hfetch := execInstr_eq rnd s hpc
    rw [hmsb, hlsb] at hfetch
    have hopeq : (0xF0 + rx) * 256 + 0x65 = 0xF000 + rx * 256 + 0x65 := by omega
    have hld := loadRegsAux_some s.memory s.index_register (rx + 1) 0 s.vregister
      (fun jj hjj => by omega)
    rw [hopeq, execOp_load rnd s rx hrx _ hld] at hfetch
    have hcy := cycle_of_execInstr rnd s _ hfetch
    refine ⟨fun hi => ?_, fun hj => ?_, ?_, ?_⟩
    · rw [hcy]
      simp only [Option.map_some']
      rw [tickTimers_vregister]
      dsimp only
      rw [if_pos (by omega : 0 ≤ i ∧ i < 0 + (rx + 1))]
    · rw [hcy]
      simp only [Option.map_some']
      rw [tickTimers_vregister]
      dsimp only
      rw [if_neg (by omega)]
    · rw [hcy]
      simp only [Option.map_some']
      rw [tickTimers_memory]
    · rw [hcy]
      simp only [Option.map_some']
      rw [tickTimers_index_register]

/-- Witness for C8: F255 at 0x200 with I = 0x400, V0..V2 = 10, 11, 12:
memory 0x401 becomes 11, memory 0x403 stays 0, V1 stays 11, I stays 0x400;
F265 with memory 0x400..0x402 = 7, 8, 9: V1 becomes 8, V5 stays 0, memory
0x401 stays 8, I stays 0x400. -/
theorem c8_witness :
    (cycle 0 stStore).map (fun t => t.memory 0x401) = some 11 ∧
    (cycle 0 stStore).map (fun t => t.memory 0x403) = some 0 ∧
    (cycle 0 stStore).map (fun t => t.vregister 1) = some 11 ∧
    (cycle 0 stStore).map (fun t => t.index_register) = some 0x400 ∧
    (cycle 0 stLoad).map (fun t => t.vregister 1) = some 8 ∧
    (cycle 0 stLoad).map (fun t => t.vregister 5) = some 0 ∧
    (cycle 0 stLoad).map (fun t => t.memory 0x401) = some 8 ∧
    (cycle 0 stLoad).map (fun t => t.index_register) = some 0x400 := by
  have hA := (c8_blockops 0 stStore 2 1 1 0x403 (by decide) (by decide) (by decide)
    (by decide)).1 (by decide)
  have hB := (c8_blockops 0 stLoad 2 1 5 0x401 (by decide) (by decide) (by decide)
    (by decide)).2 (by decide)
  exact ⟨hA.1 (by decide), hA.2.1 (by decide), hA.2.2.1, hA.2.2.2,
         hB.1 (by decide), hB.2.1 (by decide), hB.2.2.1, hB.2.2.2⟩

/-- Claim C9 counterexample: a 3585-byte ROM does not fit above 0x200 in the
4096-cell memory; instead of truncating, the loader hits an out-of-bounds
write and fails (the claim says it truncates without failing). -/
theorem c9_counterexample : load_rom (List.replicate 3585 0) new = none := by
  unfold load_rom
  rw [load_romAux_none (List.replicate 3585 0) 0 new.memory (by omega)
      (by rw [List.length_replicate]; omega)]

/-- Claim C9 (amended): for ROMs of length at most 3584 the loader writes
byte i to memory[0x200 + i] for every i below the length and leaves all
other memory (in particular everything below 0x200) unchanged; for longer
ROMs it fails with an out-of-bounds write (modelled as `none`) instead of
truncating. -/
theorem c9_load_rom_amended (data : List Nat) (s : CHIP8) (i p : Nat) :
    (data.length ≤ 3584 → i < data.length →
      (load_rom data s).map (fun t => t.memory (0x200 + i)) = some (data.getD i 0)) ∧
    (data.length ≤ 3584 → (p < 0x200 ∨ 0x200 + data.length ≤ p) →
      (load_rom data s).map (fun t => t.memory p) = some (s.memory p)) ∧
    (3584 < data.length → load_rom data s = none) := by
  refine ⟨fun hlen hi => ?_, fun hlen hp => ?_, fun hlen => ?_⟩
  · unfold load_rom
    rw [load_romAux_some data 0 s.memory (by omega)]
    simp only [Option.map_some']
    rw [if_pos (by omega : 0x200 + 0 ≤ 0x200 + i ∧ 0x200 + i < 0x200 + 0 + data.length)]
    rw [(by omega : 0x200 + i - (0x200 + 0) = i)]
  · unfold load_rom
    rw [load_romAux_some data 0 s.memory (by omega)]
    simp only [Option.map_some']
    rw [if_neg (by omega)]
  · unfold load_rom
    rw [load_romAux_none data 0 s.memory (by omega) (by omega)]

/-- Witness for the amended C9: loading [1, 2, 3] writes 2 at 0x201 and
leaves 0x1FF at 0; a 4000-byte ROM fails. -/
theorem c9_witness :
    (load_rom [1, 2, 3] new).map (fun t => t.memory 0x201) = some 2 ∧
    (load_rom [1, 2, 3] new).map (fun t => t.memory 0x1FF) = some 0 ∧
    load_rom (List.replicate 4000 0) new = none :=
  ⟨(c9_load_rom_amended [1, 2, 3] new 1 0).1 (by decide) (by decide),
   (c9_load_rom_amended [1, 2, 3] new 0 0x1FF).2.1 (by decide) (by decide),
   (c9_load_rom_amended (List.replicate 4000 0) new 0 0).2.2
      (by rw [List.length_replicate]; omega)⟩

/-- Claim C3: DXYN with in-bounds drawing.  VF is reset to 0 unconditionally
(so it is never 1, not even on pixel overwrite), the program counter
advances by 2, and the framebuffer changes exactly by XOR-toggling: a pixel
hit by an even number of set sprite bits (in particular by none — all pixels
whose sprite bits are 0) is unchanged, and a pixel hit by an odd number of
set bits is XOR-toggled, never overwritten.  The set-bit pixel positions are
`spriteHits`, built from the N bytes at memory[I..I+N-1] at coordinates
(x + col, y + row) with x = Vx, y = Vy. -/
theorem c3_draw (rnd : Nat) (s : CHIP8) (rx ry n p : Nat)
    (hpc : s.program_counter + 1 < 4096)
    (hmsb : s.memory s.program_counter = 0xD0 + rx) (hrx : rx < 16)
    (hlsb : s.memory (s.program_counter + 1) = ry * 16 + n) (hry : ry < 16) (hn : n < 16)
    (hI : s.index_register + n ≤ 4096)
    (hbounds : ∀ q ∈ spriteHits s rx ry n, q < 2048) :
    (cycle rnd s).map (fun t => t.vregister 15) = some 0 ∧
    (cycle rnd s).map (fun t => t.program_counter) = some (s.program_counter + 2) ∧
    ((spriteHits s rx ry n).count p % 2 = 0 →
      (cycle rnd s).map (fun t => t.display p) = some (s.display p)) ∧
    ((spriteHits s rx ry n).count p % 2 = 1 →
      (cycle rnd s).map (fun t => t.display p) = some (s.display p ^^^ 1)) := by
  unfold spriteHits at hbounds
  have hfetch := execInstr_eq rnd s hpc
  rw [hmsb, hlsb] at hfetch
  have hopeq : (0xD0 + rx) * 256 + (ry * 16 + n) = 0xD000 + rx * 256 + ry * 16 + n := by
    omega
  have hrb := readBytes_eq s.memory s.index_register n hI
  have hdr := drawRows_eq (s.vregister rx) (s.vregister ry)
    (spriteBytes s.memory s.index_register n) 0 s.display hbounds
  rw [hopeq, execOp_draw_some rnd s rx ry n hrx hry hn _ _ hrb hdr] at hfetch
  have hcy := cycle_of_execInstr rnd s _ hfetch
  refine ⟨?_, ?_, fun hcount => ?_, fun hcount => ?_⟩
  · rw [hcy]
    simp only [Option.map_some']
    rw [tickTimers_vregister]
    dsimp only
    rw [upd_same]
  · rw [hcy]
    simp only [Option.map_some']
    rw [tickTimers_program_counter]
    dsimp only
    rw [(by omega : (s.program_counter + 2) % 65536 = s.program_counter + 2)]
  · unfold spriteHits at hcount
    rw [hcy]
    simp only [Option.map_some']
    rw [tickTimers_display]
    dsimp only
    rw [toggleList_apply, if_pos hcount]
  · unfold spriteHits at hcount
    rw [hcy]
    simp only [Option.map_some']
    rw [tickTimers_display]
    dsimp only
    rw [toggleList_apply, if_neg (by omega)]

/-- Witness for C3: D011 at 0x200 drawing the one-byte sprite 0x80 at
(V0, V1) = (0, 0): VF ends 0, the counter ends 0x202, pixel 0 (hit once) is
toggled to 1, pixel 5 (hit by no set bit) stays 0. -/
theorem c3_witness :
    (cycle 0 stDraw).map (fun t => t.vregister 15) = some 0 ∧
    (cycle 0 stDraw).map (fun t => t.program_counter) = some 0x202 ∧
    (cycle 0 stDraw).map (fun t => t.display 0) = some 1 ∧
    (cycle 0 stDraw).map (fun t => t.display 5) = some 0 := by
  have h0 := c3_draw 0 stDraw 0 1 1 0 (by decide) (by decide) (by decide) (by decide)
    (by decide) (by decide) (by decide) (by decide)
  have h5 := c3_draw 0 stDraw 0 1 1 5 (by decide) (by decide) (by decide) (by decide)
    (by decide) (by decide) (by decide) (by decide)
  exact ⟨h0.1, h0.2.1, h0.2.2.2 (by decide), h5.2.2.1 (by decide)⟩

/-- Claim C10: the draw instruction performs no horizontal clipping or
wraparound.  A set sprite bit at column `col` with x + col ≥ 64 toggles the
pixel at LINEAR framebuffer index (x + col) + (y + row) * 64 — spilling into
the following framebuffer row — provided that index is on screen (and hit
an odd number of times); and whenever a set bit's linear index reaches 2048
or more, the cycle operation is partial (`none`, an out-of-bounds panic)
rather than wrapping to the top of the screen. -/
theorem c10_draw_spill (rnd : Nat) (s : CHIP8) (rx ry n row col : Nat)
    (hpc : s.program_counter + 1 < 4096)
    (hmsb : s.memory s.program_counter = 0xD0 + rx) (hrx : rx < 16)
    (hlsb : s.memory (s.program_counter + 1) = ry * 16 + n) (hry : ry < 16) (hn : n < 16)
    (hI : s.index_register + n ≤ 4096)
    (hrow : row < n) (hcol : col < 8)
    (hbit : s.memory (s.index_register + row) / 2 ^ (7 - col) % 2 = 1)
    (hover : 64 ≤ s.vregister rx + col) :
    ((∀ q ∈ spriteHits s rx ry n, q < 2048) →
      (spriteHits s rx ry n).count
          ((s.vregister rx + col) + (s.vregister ry + row) * 64) % 2 = 1 →
      (cycle rnd s).map
          (fun t => t.display ((s.vregister rx + col) + (s.vregister ry + row) * 64)) =
        some (s.display ((s.vregister rx + col) + (s.vregister ry + row) * 64) ^^^ 1)) ∧
    (2048 ≤ (s.vregister rx + col) + (s.vregister ry + row) * 64 →
      cycle rnd s = none) := by
  have hopeq : (0xD0 + rx) * 256 + (ry * 16 + n) = 0xD000 + rx * 256 + ry * 16 + n := by
    omega
  have hrb := readBytes_eq s.memory s.index_register n hI
  have hmem : ((s.vregister rx + col) + (s.vregister ry + row) * 64) ∈
      rowHits (s.vregister rx) (s.vregister ry)
        (spriteBytes s.memory s.index_register n) 0 := by
    apply rowHits_mem (s.vregister rx) (s.vregister ry) _ 0 row _
      (by rw [spriteBytes_length]; omega)
    rw [spriteBytes_getD s.memory s.index_register n row hrow, Nat.zero_add row]
    exact colHits_mem (s.memory (s.index_register + row)) (s.vregister rx)
      (s.vregister ry + row) 8 0 col (Nat.zero_le col) (by omega) hbit
  constructor
  · intro hbounds hcount
    unfold spriteHits at hbounds hcount
    have hfetch := execInstr_eq rnd s hpc
    rw [hmsb, hlsb] at hfetch
    have hdr := drawRows_eq (s.vregister rx) (s.vregister ry)
      (spriteBytes s.memory s.index_register n) 0 s.display hbounds
    rw [hopeq, execOp_draw_some rnd s rx ry n hrx hry hn _ _ hrb hdr] at hfetch
    rw [cycle_of_execInstr rnd s _ hfetch]
    simp only [Option.map_some']
    rw [tickTimers_display]
    dsimp only
    rw [toggleList_apply, if_neg (by omega)]
  · intro hge
    have hfetch := execInstr_eq rnd s hpc
    rw [hmsb, hlsb] at hfetch
    have hdr := drawRows_none (s.vregister rx) (s.vregister ry)
      (spriteBytes s.memory s.index_register n) 0 s.display _ hmem hge
    rw [hopeq, execOp_draw_none rnd s rx ry n hrx hry hn _ hrb hdr] at hfetch
    exact cycle_of_execInstr_none rnd s hfetch

/-- Witness for C10: the one-byte sprite 0x01 drawn at (60, 0) has its set
bit at column 7, so 60 + 7 = 67 spills into row 1 of the framebuffer and
pixel 67 is toggled; the same sprite drawn at (60, 32) targets linear index
67 + 32 * 64 = 2115 ≥ 2048 and the cycle is partial. -/
theorem c10_witness :
    (cycle 0 stSpill).map (fun t => t.display 67) = some 1 ∧
    cycle 0 stOffscreen = none :=
  ⟨(c10_draw_spill 0 stSpill 0 1 1 0 7 (by decide) (by decide) (by decide) (by decide)
      (by decide) (by decide) (by decide) (by decide) (by decide) (by decide)
      (by decide)).1 (by decide) (by decide),
   (c10_draw_spill 0 stOffscreen 0 1 1 0 7 (by decide) (by decide) (by decide)
      (by decide) (by decide) (by decide) (by decide) (by decide) (by decide)
      (by decide) (by decide)).2 (by decide)⟩

end Chip8
